import Mathlib

/-!
Shallow embedding of the model-lifecycle core of the `Major` stock-forecasting
backend (Python), together with proofs about it.

Embedded modules:
* `backend/ml/metrics.py`                — `mase` (and the helpers it needs)
* `backend/ml/safe_promotion.py`         — `SafeModelPromoter.should_promote`
* `backend/ml/evaluation/backtesting.py` — `WalkForwardBacktester.split_data` / `backtest`
* `backend/ml/uncertainty/conformal.py`  — `ConformalPrediction`
* `backend/ml/model_registry.py`         — `ModelRegistry._promote_to_champion_if_better`
* `backend/ml/model_loader.py`           — `ModelLoader.get_model`

Python floats are modelled by `PyF`: exact rationals extended with the IEEE
special values `inf`, `-inf` and `nan`, with Python's comparison and arithmetic
semantics on those special values.  Exact rational arithmetic stands in for
binary64 arithmetic: none of the verified properties depends on rounding of
binary64, only on order, sign and special-value propagation.  Python's
`ZeroDivisionError` on `x / 0.0` is modelled by `Except`.
-/

namespace Major

/-- Python float: finite rational, `inf`, `-inf`, or `nan`. -/
inductive PyF where
  | fin : ℚ → PyF
  | inf : PyF
  | ninf : PyF
  | nan : PyF
deriving DecidableEq, Repr

namespace PyF

/-- Python `math.isnan`, also what `np.isnan` returns on a scalar. -/
def isNan : PyF → Bool
  | nan => true
  | _ => false

/-- Python float subtraction `x - y` (special values per IEEE-754). -/
def sub : PyF → PyF → PyF
  | fin a, fin b => fin (a - b)
  | fin _, inf => ninf
  | fin _, ninf => inf
  | inf, fin _ => inf
  | inf, inf => nan
  | inf, ninf => inf
  | ninf, fin _ => ninf
  | ninf, inf => ninf
  | ninf, ninf => nan
  | nan, _ => nan
  | _, nan => nan

/-- Python float division `x / y` for a nonzero denominator (the zero
denominator raises `ZeroDivisionError`; see `pdiv`).  The `fin _ / fin 0`
case is unreachable through `pdiv` and is given an arbitrary value. -/
def div : PyF → PyF → PyF
  | fin a, fin b => fin (a / b)
  | fin _, inf => fin 0
  | fin _, ninf => fin 0
  | inf, fin b => if 0 < b then inf else ninf
  | inf, inf => nan
  | inf, ninf => nan
  | ninf, fin b => if 0 < b then ninf else inf
  | ninf, inf => nan
  | ninf, ninf => nan
  | nan, _ => nan
  | _, nan => nan

/-- Python float `<=` (any comparison with `nan` is `False`). -/
def le : PyF → PyF → Bool
  | fin a, fin b => a ≤ b
  | fin _, inf => true
  | fin _, ninf => false
  | inf, fin _ => false
  | inf, inf => true
  | inf, ninf => false
  | ninf, _ => true
  | nan, _ => false
  | _, nan => false

/-- Python float `<` (any comparison with `nan` is `False`). -/
def lt : PyF → PyF → Bool
  | fin a, fin b => a < b
  | fin _, inf => true
  | fin _, ninf => false
  | inf, _ => false
  | ninf, fin _ => true
  | ninf, inf => true
  | ninf, ninf => false
  | nan, _ => false
  | _, nan => false

/-- Python `abs` on a float. -/
def pabs : PyF → PyF
  | fin a => fin |a|
  | inf => inf
  | ninf => inf
  | nan => nan

/-- Multiplication by the literal `100` (used only for percentage output). -/
def mul100 : PyF → PyF
  | fin a => fin (100 * a)
  | inf => inf
  | ninf => ninf
  | nan => nan

end PyF

/-- Python float division, raising `ZeroDivisionError` on a zero denominator
(Python raises for every numerator, including `inf` and `nan`). -/
def pdiv (a b : PyF) : Except String PyF :=
  if b = PyF.fin 0 then Except.error "ZeroDivisionError: float division by zero"
  else Except.ok (a.div b)

/-- Round a rational to the nearest integer, ties to even — the rounding
`"%.2f"` formatting applies to the scaled value. -/
def roundHalfEven (q : ℚ) : ℤ :=
  let f : ℤ := ⌊q⌋
  let r : ℚ := q - f
  if r < 1/2 then f
  else if (1:ℚ)/2 < r then f + 1
  else if f % 2 = 0 then f else f + 1

/-- Left-pad to two digits (the fractional part of `"%.2f"`). -/
def pad2 (m : ℕ) : String :=
  if m < 10 then "0" ++ toString m else toString m

/-- Python `f"{x:.2f}"` on the float model.  Finite values are printed with
two decimals (round half to even); specials print as Python prints them.
(The sign of a negative value rounding to zero is dropped, where Python
prints `-0.00`; no verified property exercises that corner.) -/
def fmt2 : PyF → String
  | PyF.fin q =>
      let n : ℤ := roundHalfEven (q * 100)
      let s : String := toString (n.natAbs / 100) ++ "." ++ pad2 (n.natAbs % 100)
      if n < 0 then "-" ++ s else s
  | PyF.inf => "inf"
  | PyF.ninf => "-inf"
  | PyF.nan => "nan"

/-! ## `backend/ml/metrics.py` -/

/-- Sum of a list of rationals. -/
def qsum (l : List ℚ) : ℚ := l.foldr (· + ·) 0

/-- `np.mean` of a nonempty rational list (the empty case is guarded at each
use site exactly where the Python guards or raises). -/
def qmean (l : List ℚ) : ℚ := qsum l / l.length

/-- `np.abs(np.diff(v))` for a 1-d array: absolute first differences. -/
def absDiff : List ℚ → List ℚ
  | [] => []
  | [_] => []
  | a :: b :: t => |b - a| :: absDiff (b :: t)

/-- `np.abs(v[p:] - v[:-p])`: absolute seasonal differences at lag `p`. -/
def absSeasonalDiff (p : ℕ) (v : List ℚ) : List ℚ :=
  (List.zip (v.drop p) (v.take (v.length - p))).map (fun ab => |ab.1 - ab.2|)

/-- `mase(y_true, y_pred, y_train, seasonal_period)` from
`backend/ml/metrics.py`.  Unequal lengths raise `ValueError`; an empty or
exactly-zero naive baseline returns `nan`; otherwise the value is the finite
ratio of mean absolute errors.  Inputs are 1-d (`flatten` is the identity). -/
def mase (yTrue yPred : List ℚ) (yTrain : Option (List ℚ)) (seasonalPeriod : ℕ) :
    Except String PyF :=
  if yTrue.length ≠ yPred.length then
    Except.error "ValueError: y_true and y_pred must have the same length"
  else
    let naiveErrors : List ℚ :=
      match yTrain with
      | some tr =>
          if seasonalPeriod ≤ tr.length then absSeasonalDiff seasonalPeriod tr
          else absDiff tr
      | none => absDiff yTrue
    if naiveErrors.length = 0 ∨ qmean naiveErrors = 0 then
      Except.ok PyF.nan
    else
      let forecastErrors : List ℚ :=
        (List.zip yTrue yPred).map (fun ab => |ab.1 - ab.2|)
      Except.ok (PyF.fin (qmean forecastErrors / qmean naiveErrors))

/-! ## `backend/ml/safe_promotion.py` — `should_promote` -/

/-- The metric keys `should_promote` reads from a metric dict
(`dict.get(key, float("inf"))` on an absent key yields `inf`). -/
structure Metrics where
  mase : Option PyF := none
  rmse : Option PyF := none
  smape : Option PyF := none
deriving DecidableEq, Repr

/-- `SafeModelPromoter.promotion_threshold` (5% required improvement). -/
def promotionThreshold : ℚ := 5/100

/-- `SafeModelPromoter.should_promote(candidate_metrics, champion_metrics)`.
Primary comparison on MASE, falling back to RMSE when either MASE is `nan`;
on a MASE improvement at or above threshold the sMAPE secondary guard can
veto.  A zero denominator propagates Python's `ZeroDivisionError`. -/
def shouldPromote (cand champ : Metrics) : Except String (Bool × String) :=
  let candidateMase := cand.mase.getD PyF.inf
  let championMase := champ.mase.getD PyF.inf
  if candidateMase.isNan || championMase.isNan then
    let candidateRmse := cand.rmse.getD PyF.inf
    let championRmse := champ.rmse.getD PyF.inf
    if candidateRmse.isNan || championRmse.isNan then
      Except.ok (false, "Cannot compare: missing metrics")
    else do
      let improvement ← pdiv (championRmse.sub candidateRmse) championRmse
      if (PyF.fin promotionThreshold).le improvement then
        Except.ok (true, "RMSE improved by " ++ fmt2 improvement.mul100 ++ "%")
      else
        Except.ok (false, "RMSE improvement " ++ fmt2 improvement.mul100 ++
          "% below threshold " ++ fmt2 (PyF.fin promotionThreshold).mul100 ++ "%")
  else do
    let improvement ← pdiv (championMase.sub candidateMase) championMase
    if (PyF.fin promotionThreshold).le improvement then
      let candidateSmape := cand.smape.getD PyF.inf
      let championSmape := champ.smape.getD PyF.inf
      if !(candidateSmape.isNan || championSmape.isNan) then do
        let smapeImprovement ← pdiv (championSmape.sub candidateSmape) championSmape
        if smapeImprovement.lt (PyF.fin 0) then
          Except.ok (false, "MASE improved but sMAPE degraded by " ++
            fmt2 smapeImprovement.pabs.mul100 ++ "%")
        else
          Except.ok (true, "MASE improved by " ++ fmt2 improvement.mul100 ++ "%")
      else
        Except.ok (true, "MASE improved by " ++ fmt2 improvement.mul100 ++ "%")
    else
      Except.ok (false, "MASE improvement " ++ fmt2 improvement.mul100 ++
        "% below threshold " ++ fmt2 (PyF.fin promotionThreshold).mul100 ++ "%")

/-- The sMAPE secondary guard of `should_promote` fires (vetoes) exactly when
both sMAPE values are non-`nan` and the relative sMAPE change is negative. -/
def smapeVeto (cand champ : Metrics) : Bool :=
  let candidateSmape := cand.smape.getD PyF.inf
  let championSmape := champ.smape.getD PyF.inf
  !(candidateSmape.isNan || championSmape.isNan) &&
    ((championSmape.sub candidateSmape).div championSmape).lt (PyF.fin 0)

/-! ## `backend/ml/metrics.py` — `calculate_all_metrics`

`np.mean` of a `Bool` array and `np.mean` of a possibly empty or
`nan`-containing float list are modelled where each occurs.  `sqrtQ` abstracts
binary64 `np.sqrt` (an irrational-valued external numeric routine); no
verified property depends on its values. -/

/-- The epsilon `1e-8` substituted for zero denominators in `mape`/`smape`. -/
def eps : ℚ := 1/100000000

/-- The metric dict built by `calculate_all_metrics` (keys in the backtest
call path; `coverage` is absent there since no intervals are passed). -/
structure AllMetrics where
  rmse : ℚ
  mae : ℚ
  mape : ℚ
  smape : ℚ
  r2 : ℚ
  mase : Option PyF := none
  accuracy : ℚ
deriving DecidableEq, Repr

/-- `calculate_all_metrics(y_true, y_pred, y_train)` from
`backend/ml/metrics.py`.  Unequal-length or empty inputs raise (from
`sklearn.metrics` / the metric helpers); the `mase` key is present exactly
when `y_train` is given, with any `mase` exception converted to `nan`;
`r2_score` follows sklearn's zero-variance convention (`1.0` when both sums
of squares vanish, else `0.0`). -/
def calcAllMetrics (sqrtQ : ℚ → ℚ) (yTrue yPred : List ℚ) (yTrain : Option (List ℚ)) :
    Except String AllMetrics :=
  if yTrue.length ≠ yPred.length ∨ yTrue.length = 0 then
    Except.error "ValueError: inconsistent or empty input arrays"
  else
    let pairs := List.zip yTrue yPred
    let mse := qmean (pairs.map (fun ab => (ab.1 - ab.2) ^ 2))
    let maeV := qmean (pairs.map (fun ab => |ab.1 - ab.2|))
    let mapeV := 100 * qmean (pairs.map (fun ab =>
      let yt := if ab.1 = 0 then eps else ab.1
      |(yt - ab.2) / yt|))
    let smapeV := 100 * qmean (pairs.map (fun ab =>
      let den := (|ab.1| + |ab.2|) / 2
      let den := if den = 0 then eps else den
      |ab.1 - ab.2| / den))
    let ssRes := qsum (pairs.map (fun ab => (ab.1 - ab.2) ^ 2))
    let ssTot := qsum (yTrue.map (fun a => (a - qmean yTrue) ^ 2))
    let r2V := if ssTot ≠ 0 then 1 - ssRes / ssTot else if ssRes = 0 then 1 else 0
    let maseV : Option PyF :=
      match yTrain with
      | none => none
      | some tr =>
          match mase yTrue yPred (some tr) 1 with
          | Except.ok v => some v
          | Except.error _ => some PyF.nan
    let accuracyV := 100 * qmean (pairs.map (fun ab =>
      let den := if ab.1 = 0 then eps else ab.1
      if |(ab.1 - ab.2) / den| ≤ 75/1000 then (1:ℚ) else 0))
    Except.ok {
      rmse := sqrtQ mse, mae := maeV, mape := mapeV, smape := smapeV,
      r2 := r2V, mase := maseV, accuracy := accuracyV }

/-! ## `backend/ml/evaluation/backtesting.py` — `WalkForwardBacktester` -/

/-- Backtest strategy; the constructor rejects every other string. -/
inductive Strategy where
  | rolling
  | expanding
deriving DecidableEq, Repr

/-- `WalkForwardBacktester.__init__` state. -/
structure Backtester where
  trainSize : ℕ
  testSize : ℕ
  stepSize : ℕ
  strategy : Strategy
deriving DecidableEq, Repr

/-- The window advance at the bottom of the `split_data` loop.  The source
branches on the strategy but both branches execute `start_idx += step_size`
(the expanding branch carries a comment that the training span is kept fixed
"for simplicity"). -/
def stepForward (b : Backtester) (start : ℕ) : ℕ :=
  match b.strategy with
  | Strategy.rolling => start + b.stepSize
  | Strategy.expanding => start + b.stepSize

/-- One element of the list produced by `split_data`.  The date slices are
present exactly when the truthiness test `if dates:` passes (a nonempty
list; `None` and `[]` behave identically there). -/
structure Split where
  trainStart : ℕ
  trainEnd : ℕ
  testStart : ℕ
  testEnd : ℕ
  trainData : List ℚ
  testData : List ℚ
  trainDates : Option (List String) := none
  testDates : Option (List String) := none
  splitNumber : ℕ
deriving DecidableEq, Repr

/-- The `while` loop of `split_data`, fuelled (the Python loop terminates for
every positive `step_size`; `splitData` supplies sufficient fuel).  The
trailing `if start_idx + train + test > n: break` duplicates the loop guard
and is folded into the recursion exactly as written. -/
def splitLoop (b : Backtester) (data : List ℚ) (dates : List String) :
    ℕ → ℕ → ℕ → List Split
  | 0, _, _ => []
  | fuel + 1, start, num =>
      if start + b.trainSize + b.testSize ≤ data.length then
        let trainEnd := start + b.trainSize
        let testEnd := min (trainEnd + b.testSize) data.length
        let split : Split := {
          trainStart := start, trainEnd := trainEnd,
          testStart := trainEnd, testEnd := testEnd,
          trainData := (data.drop start).take b.trainSize,
          testData := (data.drop trainEnd).take (testEnd - trainEnd),
          trainDates := if dates ≠ [] then some ((dates.drop start).take b.trainSize) else none,
          testDates := if dates ≠ [] then some ((dates.drop trainEnd).take (testEnd - trainEnd)) else none,
          splitNumber := num }
        let start2 := stepForward b start
        if data.length < start2 + b.trainSize + b.testSize then [split]
        else split :: splitLoop b data dates fuel start2 (num + 1)
      else []

/-- `WalkForwardBacktester.split_data(data, dates)`: returns `[]` on
insufficient data, else all windows at starts `0, step, 2·step, …` while the
full train+test window fits. -/
def splitData (b : Backtester) (data : List ℚ) (dates : List String) : List Split :=
  if data.length < b.trainSize + b.testSize then []
  else splitLoop b data dates (data.length + 1) 0 1

/-- A successful per-split result dict of `backtest` (metric dict plus the
recorded predictions and actuals). -/
structure SplitOk where
  splitNumber : ℕ
  trainStart : ℕ
  trainEnd : ℕ
  testStart : ℕ
  testEnd : ℕ
  metrics : AllMetrics
  predictions : List ℚ
  actuals : List ℚ
  trainDates : Option (List String) := none
  testDates : Option (List String) := none
deriving DecidableEq, Repr

/-- A per-split result dict: either the successful shape or the
`{"split_number": …, "error": str(e)}` shape recorded by the `except` arm. -/
inductive SplitResult where
  | ok : SplitOk → SplitResult
  | err : ℕ → String → SplitResult
deriving DecidableEq, Repr

/-- The `try` body of the `backtest` loop for one split: train, predict,
compute metrics (with the split's training segment as the MASE baseline);
any raised exception becomes the `err` entry carrying the split number. -/
def runSplit {M : Type} (sqrtQ : ℚ → ℚ)
    (trainFn : List ℚ → Except String M)
    (predictFn : M → List ℚ → Except String (List ℚ))
    (dates : List String) (split : Split) : SplitResult :=
  let attempt : Except String (List ℚ × AllMetrics) := do
    let model ← trainFn split.trainData
    let predictions ← predictFn model split.testData
    let metrics ← calcAllMetrics sqrtQ split.testData predictions (some split.trainData)
    Except.ok (predictions, metrics)
  match attempt with
  | Except.ok (predictions, metrics) =>
      SplitResult.ok {
        splitNumber := split.splitNumber,
        trainStart := split.trainStart, trainEnd := split.trainEnd,
        testStart := split.testStart, testEnd := split.testEnd,
        metrics := metrics, predictions := predictions, actuals := split.testData,
        trainDates := if dates ≠ [] then some (split.trainDates.getD []) else none,
        testDates := if dates ≠ [] then some (split.testDates.getD []) else none }
  | Except.error e => SplitResult.err split.splitNumber e

/-- The `backtest` loop accumulators: per-split results in order, and the
pooled `all_predictions` / `all_actuals` extended only on success. -/
def backtestLoop {M : Type} (sqrtQ : ℚ → ℚ)
    (trainFn : List ℚ → Except String M)
    (predictFn : M → List ℚ → Except String (List ℚ))
    (dates : List String) : List Split → List SplitResult × List ℚ × List ℚ
  | [] => ([], [], [])
  | s :: rest =>
      let r := runSplit sqrtQ trainFn predictFn dates s
      let acc := backtestLoop sqrtQ trainFn predictFn dates rest
      match r with
      | SplitResult.ok o => (r :: acc.1, o.predictions ++ acc.2.1, o.actuals ++ acc.2.2)
      | SplitResult.err _ _ => (r :: acc.1, acc.2.1, acc.2.2)

/-- `np.mean` over Python floats: `nan` on the empty list, `nan` when any
entry is `nan`, else the exact mean.  (The lists this is applied to hold
only finite or `nan` values.) -/
def pyMean (l : List PyF) : PyF :=
  if l.isEmpty then PyF.nan
  else if l.any PyF.isNan then PyF.nan
  else PyF.fin (qmean (l.map (fun x => match x with | PyF.fin q => q | _ => 0)))

/-- The `summary` dict of `backtest`: NaN-aware means over successful splits
(`np.mean` of an empty selection is `nan`). -/
structure Summary where
  meanRmse : PyF
  meanMae : PyF
  meanMase : PyF
  meanSmape : PyF
deriving DecidableEq, Repr

/-- The full-result dict returned by `backtest` when at least one split was
generated (`aggregate_metrics` is the empty dict — `none` — when nothing was
pooled). -/
structure BacktestResult where
  strategy : Strategy
  trainSize : ℕ
  testSize : ℕ
  stepSize : ℕ
  totalSplits : ℕ
  aggregateMetrics : Option AllMetrics
  splitResults : List SplitResult
  summary : Summary
deriving DecidableEq, Repr

/-- `backtest`'s two result shapes: the early
`{"error": "Insufficient data for backtesting", "splits": 0, "results": []}`
return, or the full result dict. -/
inductive BacktestOutcome where
  | insufficientData : BacktestOutcome
  | result : BacktestResult → BacktestOutcome
deriving DecidableEq, Repr

/-- Per-split metric dict values selected for a `summary` mean. -/
def summarySelect (f : AllMetrics → Option PyF) (results : List SplitResult) : List PyF :=
  results.filterMap (fun r =>
    match r with
    | SplitResult.ok o => f o.metrics
    | SplitResult.err _ _ => none)

/-- `WalkForwardBacktester.backtest(data, model_train_fn, model_predict_fn,
dates)`.  The aggregate metric computation can itself raise in Python (it
never does on the states this function reaches — proved below); `Except`
propagates that faithfully. -/
def backtest {M : Type} (b : Backtester) (sqrtQ : ℚ → ℚ) (data : List ℚ) (dates : List String)
    (trainFn : List ℚ → Except String M)
    (predictFn : M → List ℚ → Except String (List ℚ)) :
    Except String BacktestOutcome :=
  let splits := splitData b data dates
  if splits.length = 0 then Except.ok BacktestOutcome.insufficientData
  else do
    let acc := backtestLoop sqrtQ trainFn predictFn dates splits
    let results := acc.1
    let allPredictions := acc.2.1
    let allActuals := acc.2.2
    let aggregateMetrics ←
      if 0 < allPredictions.length ∧ 0 < allActuals.length then do
        let m ← calcAllMetrics sqrtQ allActuals allPredictions none
        Except.ok (some m)
      else Except.ok none
    Except.ok (BacktestOutcome.result {
      strategy := b.strategy, trainSize := b.trainSize, testSize := b.testSize,
      stepSize := b.stepSize, totalSplits := splits.length,
      aggregateMetrics := aggregateMetrics, splitResults := results,
      summary := {
        meanRmse := pyMean (summarySelect (fun m => some (PyF.fin m.rmse)) results),
        meanMae := pyMean (summarySelect (fun m => some (PyF.fin m.mae)) results),
        meanMase := pyMean (summarySelect (fun m => m.mase) results),
        meanSmape := pyMean (summarySelect (fun m => some (PyF.fin m.smape)) results) } })

/-- Pooled predictions of the successful splits, in order (what
`all_predictions` holds at the end of the loop). -/
def okPredictions (results : List SplitResult) : List ℚ :=
  results.flatMap (fun r =>
    match r with
    | SplitResult.ok o => o.predictions
    | SplitResult.err _ _ => [])

/-- Pooled actuals of the successful splits, in order (what `all_actuals`
holds at the end of the loop). -/
def okActuals (results : List SplitResult) : List ℚ :=
  results.flatMap (fun r =>
    match r with
    | SplitResult.ok o => o.actuals
    | SplitResult.err _ _ => [])

/-! ## `backend/ml/uncertainty/conformal.py` — `ConformalPrediction` -/

/-- `ConformalPrediction.__init__` state.  `coverage_history` entries are
Python floats (`np.mean` of an empty boolean array is `nan`). -/
structure ConformalState where
  coverage : ℚ
  alpha : ℚ
  adaptive : Bool
  calibrationScores : List ℚ
  quantile : Option ℚ
  coverageHistory : List PyF
deriving DecidableEq, Repr

/-- `ConformalPrediction(coverage, alpha, adaptive)`. -/
def mkConformal (coverage : ℚ) (alpha : Option ℚ) (adaptive : Bool) : ConformalState :=
  { coverage := coverage, alpha := alpha.getD (1 - coverage), adaptive := adaptive,
    calibrationScores := [], quantile := none, coverageHistory := [] }

/-- `np.quantile(scores, p)` with the default linear interpolation method:
with ascending sorted scores `s₀ … s₍ₙ₋₁₎` and `h = p·(n−1)`, the value is
`s_⌊h⌋ + (h − ⌊h⌋)·(s_⌊h⌋₊₁ − s_⌊h⌋)` (the last term vanishing at `h = n−1`). -/
def npQuantileLinear (scores : List ℚ) (p : ℚ) : ℚ :=
  let sorted := scores.insertionSort (· ≤ ·)
  let h : ℚ := p * ((scores.length : ℚ) - 1)
  let k : ℕ := (⌊h⌋).toNat
  let g : ℚ := h - (⌊h⌋ : ℚ)
  let a := sorted.getD k 0
  let b := sorted.getD (k + 1) a
  a + g * (b - a)

/-- `ConformalPrediction.calibrate(predictions, actuals)`: store the
non-conformity scores and the clamped finite-sample quantile.  Mismatched
lengths raise a broadcast error; an empty calibration set raises
`ZeroDivisionError` in `quantile_level`; a quantile level outside `[0, 1]`
(possible only for `alpha > 1`) is rejected by `np.quantile`. -/
def calibrate (st : ConformalState) (preds acts : List ℚ) : Except String ConformalState :=
  if preds.length ≠ acts.length then
    Except.error "ValueError: operands could not be broadcast together"
  else
    let scores := (List.zip preds acts).map (fun pa => |pa.1 - pa.2|)
    if scores.length = 0 then
      Except.error "ZeroDivisionError: division by zero"
    else
      let quantileLevel := min ((1 + (scores.length : ℚ)) * (1 - st.alpha) / scores.length) 1
      if quantileLevel < 0 then
        Except.error "ValueError: Quantiles must be in the range [0, 1]"
      else
        Except.ok { st with calibrationScores := scores,
                            quantile := some (npQuantileLinear scores quantileLevel) }

/-- The dict returned by `predict_with_intervals`. -/
structure Intervals where
  predictions : List ℚ
  lower : List ℚ
  upper : List ℚ
  intervalWidth : List ℚ
  coverage : ℚ
  alpha : ℚ
deriving DecidableEq, Repr

/-- `ConformalPrediction.predict_with_intervals(predictions, adaptive_alpha)`:
raises before calibration; width is the quantile, scaled by the adaptive
multiplier when coverage history exists (mean of the last ten observations
once ten exist, else the target itself; `nan` comparisons are `False`, so a
`nan` recent coverage leaves the width unscaled). -/
def predictWithIntervals (st : ConformalState) (preds : List ℚ) (adaptiveAlpha : Option ℚ) :
    Except String Intervals :=
  match st.quantile with
  | none => Except.error "ValueError: Model must be calibrated before prediction"
  | some q =>
      let alpha := adaptiveAlpha.getD st.alpha
      let width :=
        if st.adaptive ∧ 0 < st.coverageHistory.length then
          let recent : PyF :=
            if 10 ≤ st.coverageHistory.length then
              pyMean (st.coverageHistory.drop (st.coverageHistory.length - 10))
            else PyF.fin st.coverage
          let mult : ℚ :=
            if recent.lt (PyF.fin st.coverage) then 11/10
            else if (PyF.fin st.coverage).lt recent then 19/20
            else 1
          q * mult
        else q
      Except.ok {
        predictions := preds,
        lower := preds.map (fun p => p - width),
        upper := preds.map (fun p => p + width),
        intervalWidth := preds.map (fun _ => width),
        coverage := st.coverage, alpha := alpha }

/-- `ConformalPrediction.update_coverage(predictions, actuals)`: a no-op when
not adaptive; else recompute intervals (raising pre-calibration), measure the
fraction of actuals inside them (`nan` on zero actuals), append it, and keep
the last 100 entries.  Length-1 numpy broadcasting is not modelled (no
verified property exercises it); other length mismatches raise. -/
def updateCoverage (st : ConformalState) (preds acts : List ℚ) : Except String ConformalState :=
  if st.adaptive = false then Except.ok st
  else do
    let intervals ← predictWithIntervals st preds none
    if acts.length ≠ intervals.lower.length then
      Except.error "ValueError: operands could not be broadcast together"
    else
      let covered := (acts.zip (intervals.lower.zip intervals.upper)).countP
        (fun x => decide (x.2.1 ≤ x.1 ∧ x.1 ≤ x.2.2))
      let coverageVal : PyF :=
        if acts.length = 0 then PyF.nan else PyF.fin ((covered : ℚ) / acts.length)
      let hist := st.coverageHistory ++ [coverageVal]
      let hist := if 100 < hist.length then hist.drop (hist.length - 100) else hist
      Except.ok { st with coverageHistory := hist }

/-- One public call on a `ConformalPrediction` object. -/
inductive ConformalOp where
  | calibrateOp (preds acts : List ℚ)
  | predictOp (preds : List ℚ) (adaptiveAlpha : Option ℚ)
  | updateOp (preds acts : List ℚ)

/-- The state after one call.  A call that raises leaves the state as it was
(`predict_with_intervals` never mutates; the partially assigned
`calibration_scores` of a failing `calibrate` never includes the coverage
history, which is all the verified invariant concerns). -/
def applyOp (st : ConformalState) (op : ConformalOp) : ConformalState :=
  match op with
  | ConformalOp.calibrateOp p a =>
      match calibrate st p a with
      | Except.ok st2 => st2
      | Except.error _ => st
  | ConformalOp.predictOp _ _ => st
  | ConformalOp.updateOp p a =>
      match updateCoverage st p a with
      | Except.ok st2 => st2
      | Except.error _ => st

/-- A sequence of calls on one object. -/
def runOps (st : ConformalState) (ops : List ConformalOp) : ConformalState :=
  ops.foldl applyOp st

/-- Number of actuals inside `[lower, upper]` positionwise (what
`np.mean((actuals >= lower) & (actuals <= upper))` counts). -/
def coveredCount (lower upper acts : List ℚ) : ℕ :=
  (acts.zip (lower.zip upper)).countP (fun x => decide (x.2.1 ≤ x.1 ∧ x.1 ≤ x.2.2))

/-! ## `backend/ml/model_registry.py` — `ModelRegistry` -/

/-- One MLflow model version with its run metrics (the registry reads run
metrics through `get_run(run_id).data.metrics`; the entry carries them
directly). -/
structure RegistryEntry where
  name : String
  version : ℕ
  stage : String
  metrics : List (String × PyF)
deriving DecidableEq, Repr

/-- `run.data.metrics.get(key, float("inf"))`. -/
def lookupMetric (metrics : List (String × PyF)) (key : String) : PyF :=
  match metrics.find? (fun kv => kv.1 = key) with
  | some kv => kv.2
  | none => PyF.inf

/-- `MlflowClient.get_latest_versions(name, stages=["Champion"])[0]`: the
highest-numbered version of `name` in stage `Champion`, if any. -/
def latestChampion (entries : List RegistryEntry) (name : String) : Option RegistryEntry :=
  (entries.filter (fun e => e.name = name ∧ e.stage = "Champion")).foldl
    (fun acc e =>
      match acc with
      | none => some e
      | some b => if b.version < e.version then some e else some b) none

/-- `MlflowClient.transition_model_version_stage(name, version, stage)` with
the default `archive_existing_versions=False`: only the addressed version
changes stage. -/
def transitionStage (entries : List RegistryEntry) (name : String) (version : ℕ)
    (stage : String) : List RegistryEntry :=
  entries.map (fun e =>
    if e.name = name ∧ e.version = version then { e with stage := stage } else e)

/-- `ModelRegistry._promote_to_champion_if_better(model_name, version,
metrics)`.  The source's `if new_rmse < champion_rmse:` block returns only
when taken; when the candidate is not better, execution falls through the
inner `try` to the unconditional promotion guarded only by the comment
"If no champion exists, promote this version" — so both arms of the
comparison below transition the new version to `Champion`, exactly as the
source does. -/
def promoteToChampionIfBetter (entries : List RegistryEntry) (name : String) (version : ℕ)
    (metrics : List (String × PyF)) : List RegistryEntry :=
  match latestChampion entries name with
  | some champ =>
      let championRmse := lookupMetric champ.metrics "rmse"
      let newRmse := lookupMetric metrics "rmse"
      if newRmse.lt championRmse then
        transitionStage entries name version "Champion"
      else
        transitionStage entries name version "Champion"
  | none => transitionStage entries name version "Champion"

/-- Next version number MLflow assigns for `name` (monotonically increasing
integers per name, per the spec's registry contract — `mlflow.register_model`
itself is outside the repository). -/
def nextVersion (entries : List RegistryEntry) (name : String) : ℕ :=
  1 + entries.foldl (fun acc e => if e.name = name then max acc e.version else acc) 0

/-- `ModelRegistry.save_model(model, model_name, metrics, params)` restricted
to its registry effect: register a fresh version carrying the logged metrics
(stage `None`), then run `_promote_to_champion_if_better`.  Returns the new
version and the resulting entry list. -/
def saveModel (entries : List RegistryEntry) (name : String)
    (metrics : List (String × PyF)) : ℕ × List RegistryEntry :=
  let v := nextVersion entries name
  let entries2 := entries ++ [{ name := name, version := v, stage := "None", metrics := metrics }]
  (v, promoteToChampionIfBetter entries2 name v metrics)

/-! ## `backend/ml/model_loader.py` — `ModelLoader` -/

/-- A model handle as the loader sees it: an artifact loaded from the
registry, or a freshly constructed untrained `LSTMModel(units=50)` /
`RNNModel(units=50)`.  `objectId` models Python object identity: each
constructor call yields a distinct object. -/
inductive LoaderModel where
  | fromRegistry : String → LoaderModel
  | fresh : String → ℕ → Bool → ℕ → LoaderModel
deriving DecidableEq, Repr

/-- `ModelLoader.__init__` state (`registry` is `none` when MLflow is
disabled; a present registry is its `get_model` lookup, whose internal
exceptions the loader catches and treats as a miss). -/
structure LoaderState where
  modelCache : List (String × LoaderModel)
  registry : Option (String → String → Option String)
  warmupComplete : Bool
  nextObjectId : ℕ

/-- Python `str.upper()` on the ASCII model-type names the loader receives. -/
def pyUpper (s : String) : String := String.mk (s.data.map Char.toUpper)

/-- A fresh `ModelLoader()` with MLflow disabled: empty cache, no registry. -/
def emptyLoader : LoaderState :=
  { modelCache := [], registry := none, warmupComplete := false, nextObjectId := 0 }

/-- `ModelLoader.get_model(model_type, alias_or_version, fallback_to_new)`.
Double-checked locking collapses in this sequential model: one cache lookup.
A registry hit is cached; the fallback path constructs a fresh untrained
model (`is_trained = False`) and — as in the source — returns it without
inserting it into the cache. -/
def getModel (st : LoaderState) (modelType aliasOrVersion : String)
    (fallbackToNew : Bool) : Option LoaderModel × LoaderState :=
  let mtu := pyUpper modelType
  let cacheKey := mtu ++ "@" ++ aliasOrVersion
  match st.modelCache.find? (fun kv => kv.1 = cacheKey) with
  | some kv => (some kv.2, st)
  | none =>
      let fromReg : Option LoaderModel :=
        match st.registry with
        | some reg => (reg ("StockNeuro_" ++ mtu) aliasOrVersion).map LoaderModel.fromRegistry
        | none => none
      match fromReg with
      | some m => (some m, { st with modelCache := st.modelCache ++ [(cacheKey, m)] })
      | none =>
          if fallbackToNew then
            if mtu = "LSTM" then
              (some (LoaderModel.fresh "LSTM" 50 false st.nextObjectId),
                { st with nextObjectId := st.nextObjectId + 1 })
            else if mtu = "RNN" then
              (some (LoaderModel.fresh "RNN" 50 false st.nextObjectId),
                { st with nextObjectId := st.nextObjectId + 1 })
            else (none, st)
          else (none, st)

/-! Concrete fixtures used by closed witness statements. -/

/-- A 1/1/1 rolling backtester (three splits on a four-point series). -/
def tinyBacktester : Backtester :=
  { trainSize := 1, testSize := 1, stepSize := 1, strategy := Strategy.rolling }

/-- A training function that fails exactly on the training segment `[2]`. -/
def boomTrainFn : List ℚ → Except String Unit :=
  fun l => if l = [2] then Except.error "boom" else Except.ok ()

/-- A prediction function echoing the test segment. -/
def echoPredictFn : Unit → List ℚ → Except String (List ℚ) :=
  fun _ l => Except.ok l

/-- A calibrated adaptive `ConformalPrediction` state (quantile 1, empty
coverage history), used by closed witness statements. -/
def calConformal : ConformalState :=
  { coverage := 9/10, alpha := 1/10, adaptive := true, calibrationScores := [0],
    quantile := some 1, coverageHistory := [] }

/-- The state after `update_coverage([1], [1])` on `calConformal`: one fully
covered observation appended. -/
def updConformal : ConformalState :=
  { calConformal with coverageHistory := [PyF.fin 1] }

/-! ## Theorems -/

/-- `C2`: `should_promote` with two non-NaN MASE values promotes exactly when
the relative improvement `(champion − candidate)/champion` reaches the 5%
threshold, subject only to the sMAPE secondary guard; on the spec's two
scenarios it returns `(True, "MASE improved by 20.00%")` and
`(False, "MASE improvement 2.00% below threshold 5.00%")`.  (The champion
MASE must be nonzero for the ratio — and the Python division — to be
defined.) -/
theorem C2_shouldPromote_mase_threshold :
    (shouldPromote { mase := some (PyF.fin (4/5)) } { mase := some (PyF.fin 1) } =
      Except.ok (true, "MASE improved by 20.00%")) ∧
    (shouldPromote { mase := some (PyF.fin (49/50)) } { mase := some (PyF.fin 1) } =
      Except.ok (false, "MASE improvement 2.00% below threshold 5.00%")) ∧
    ∀ (cand champ : Metrics) (cm chm : PyF) (b : Bool) (r : String),
      cand.mase = some cm → champ.mase = some chm →
      cm.isNan = false → chm.isNan = false → chm ≠ PyF.fin 0 →
      shouldPromote cand champ = Except.ok (b, r) →
      (b = true ↔ ((PyF.fin promotionThreshold).le ((chm.sub cm).div chm) = true ∧
        smapeVeto cand champ = false)) := by
  refine ⟨?_, ?_, ?_⟩
  · simp only [shouldPromote, Option.getD_some, Option.getD_none, PyF.isNan, Bool.or_self, pdiv,
      PyF.sub, PyF.div, PyF.le, PyF.lt, PyF.mul100, promotionThreshold, bind, Except.bind,
      reduceCtorEq, if_false, if_true, ite_false, ite_true]
    norm_num [fmt2, roundHalfEven, pad2]
    decide
  · simp only [shouldPromote, Option.getD_some, Option.getD_none, PyF.isNan, Bool.or_self, pdiv,
      PyF.sub, PyF.div, PyF.le, PyF.lt, PyF.mul100, promotionThreshold, bind, Except.bind,
      reduceCtorEq, if_false, if_true, ite_false, ite_true]
    norm_num [fmt2, roundHalfEven, pad2]
    decide
  intro cand champ cm chm b r hc hch hcn hchn hz hr
  unfold shouldPromote at hr
  rw [hc, hch] at hr
  simp only [Option.getD_some, hcn, hchn, Bool.or_self, Bool.false_eq_true, if_false] at hr
  unfold pdiv at hr
  rw [if_neg hz] at hr
  simp only [bind, Except.bind] at hr
  unfold smapeVeto
  by_cases hle : (PyF.fin promotionThreshold).le ((chm.sub cm).div chm) = true
  · rw [if_pos hle] at hr
    by_cases hsn : ((cand.smape.getD PyF.inf).isNan || (champ.smape.getD PyF.inf).isNan) = true
    · rw [hsn] at hr
      simp only [Bool.not_true, Bool.false_eq_true, if_false] at hr
      cases hr
      simp [hle, hsn]
    · rw [Bool.not_eq_true] at hsn
      rw [hsn] at hr
      simp only [Bool.not_false, if_true] at hr
      by_cases hsz : champ.smape.getD PyF.inf = PyF.fin 0
      · rw [if_pos hsz] at hr
        simp at hr
      · rw [if_neg hsz] at hr
        simp only [bind, Except.bind] at hr
        by_cases hveto :
            (((champ.smape.getD PyF.inf).sub (cand.smape.getD PyF.inf)).div
              (champ.smape.getD PyF.inf)).lt (PyF.fin 0) = true
        · rw [if_pos hveto] at hr
          cases hr
          simp [hle, hsn, hveto]
        · rw [if_neg hveto] at hr
          cases hr
          simp_all
  · rw [if_neg hle] at hr
    cases hr
    simp [hle]

/-- `C2` witness: the general clause of `C2_shouldPromote_mase_threshold`
instantiated at the 20%-improvement scenario. -/
theorem C2_shouldPromote_mase_threshold_witness :
    (true = true ↔ ((PyF.fin promotionThreshold).le
        (((PyF.fin 1).sub (PyF.fin (4/5))).div (PyF.fin 1)) = true ∧
      smapeVeto { mase := some (PyF.fin (4/5)) } { mase := some (PyF.fin 1) } = false)) :=
  C2_shouldPromote_mase_threshold.2.2
    { mase := some (PyF.fin (4/5)) } { mase := some (PyF.fin 1) }
    (PyF.fin (4/5)) (PyF.fin 1) true "MASE improved by 20.00%"
    rfl rfl rfl rfl (by decide) C2_shouldPromote_mase_threshold.1

/-- `C3` counterexample: at candidate `{mase: 0.8, smape: 1.0}` against
champion `{mase: 1.0, smape: 0.0}` the MASE improvement is 20% ≥ 5%, both
sMAPE values are non-NaN and `champion_smape − candidate_smape = −1 < 0`,
yet `should_promote` raises `ZeroDivisionError` from the guard's division
instead of returning the `(False, …sMAPE degraded…)` veto the claim
promises. -/
theorem C3_smape_guard_counterexample :
    ((PyF.fin promotionThreshold).le
        (((PyF.fin 1).sub (PyF.fin (4/5))).div (PyF.fin 1)) = true ∧
      ((PyF.fin 0).sub (PyF.fin 1)).lt (PyF.fin 0) = true) ∧
    shouldPromote { mase := some (PyF.fin (4/5)), smape := some (PyF.fin 1) }
        { mase := some (PyF.fin 1), smape := some (PyF.fin 0) } =
      Except.error "ZeroDivisionError: float division by zero" := by
  refine ⟨⟨?_, ?_⟩, ?_⟩
  · simp only [PyF.le, PyF.sub, PyF.div, promotionThreshold]
    norm_num
  · simp only [PyF.lt, PyF.sub]
    norm_num
  · simp only [shouldPromote, Option.getD_some, Option.getD_none, PyF.isNan, Bool.or_self, pdiv,
      PyF.sub, PyF.div, PyF.le, PyF.lt, PyF.mul100, promotionThreshold, bind, Except.bind,
      reduceCtorEq, if_false, if_true, ite_false, ite_true]
    norm_num [fmt2, roundHalfEven, pad2]

/-- `C3` (amended): when the MASE improvement clears the threshold, both
sMAPE values are non-NaN, the champion's sMAPE is positive, and
`champion_smape − candidate_smape` is negative, `should_promote` vetoes with
a reason citing the sMAPE degradation. -/
theorem C3_smape_guard_veto
    (cand champ : Metrics) (cm chm cs chs : PyF)
    (hc : cand.mase = some cm) (hch : champ.mase = some chm)
    (hcn : cm.isNan = false) (hchn : chm.isNan = false)
    (hz : chm ≠ PyF.fin 0)
    (hle : (PyF.fin promotionThreshold).le ((chm.sub cm).div chm) = true)
    (hcs : cand.smape = some cs) (hchs : champ.smape = some chs)
    (hcsn : cs.isNan = false) (hchsn : chs.isNan = false)
    (hpos : (PyF.fin 0).lt chs = true)
    (hneg : (chs.sub cs).lt (PyF.fin 0) = true) :
    ∃ s, shouldPromote cand champ =
      Except.ok (false, "MASE improved but sMAPE degraded by " ++ s ++ "%") := by
  have hchsz : chs ≠ PyF.fin 0 := by
    intro h
    rw [h] at hpos
    simp [PyF.lt] at hpos
  have hveto : ((chs.sub cs).div chs).lt (PyF.fin 0) = true := by
    cases chs with
    | fin q =>
        have hq : 0 < q := by simpa [PyF.lt] using hpos
        cases hd : (PyF.fin q).sub cs with
        | fin d =>
            rw [hd] at hneg
            have hdneg : d < 0 := by simpa [PyF.lt] using hneg
            simp only [PyF.div, PyF.lt, decide_eq_true_eq]
            exact div_neg_of_neg_of_pos hdneg hq
        | inf => rw [hd] at hneg; simp [PyF.lt] at hneg
        | ninf => simp [PyF.div, PyF.lt, hq]
        | nan => rw [hd] at hneg; simp [PyF.lt] at hneg
    | inf =>
        cases cs with
        | fin a => simp [PyF.sub, PyF.lt] at hneg
        | inf => simp [PyF.sub, PyF.lt] at hneg
        | ninf => simp [PyF.sub, PyF.lt] at hneg
        | nan => simp [PyF.isNan] at hcsn
    | ninf => simp [PyF.lt] at hpos
    | nan => simp [PyF.isNan] at hchsn
  refine ⟨fmt2 ((chs.sub cs).div chs).pabs.mul100, ?_⟩
  unfold shouldPromote
  rw [hc, hch]
  simp only [Option.getD_some, hcn, hchn, Bool.or_self, Bool.false_eq_true, if_false]
  unfold pdiv
  rw [if_neg hz]
  simp only [bind, Except.bind]
  rw [if_pos hle, hcs, hchs]
  simp only [Option.getD_some, hcsn, hchsn, Bool.or_self, Bool.not_false, if_true]
  rw [if_neg hchsz]
  simp only [bind, Except.bind]
  rw [if_pos hveto]

/-- `C3` witness: the amended veto at candidate `{mase: 0.8, smape: 2.0}`
against champion `{mase: 1.0, smape: 1.0}`. -/
theorem C3_smape_guard_veto_witness :
    ∃ s, shouldPromote { mase := some (PyF.fin (4/5)), smape := some (PyF.fin 2) }
        { mase := some (PyF.fin 1), smape := some (PyF.fin 1) } =
      Except.ok (false, "MASE improved but sMAPE degraded by " ++ s ++ "%") :=
  C3_smape_guard_veto
    { mase := some (PyF.fin (4/5)), smape := some (PyF.fin 2) }
    { mase := some (PyF.fin 1), smape := some (PyF.fin 1) }
    (PyF.fin (4/5)) (PyF.fin 1) (PyF.fin 2) (PyF.fin 1)
    rfl rfl rfl rfl (by decide)
    (by simp only [PyF.le, PyF.sub, PyF.div, promotionThreshold]; norm_num)
    rfl rfl rfl rfl
    (by simp only [PyF.lt]; norm_num)
    (by simp only [PyF.lt, PyF.sub]; norm_num)

/-! Helper lemmas about sums, means and difference lists. -/

theorem qsum_nonneg (l : List ℚ) (h : ∀ x ∈ l, 0 ≤ x) : 0 ≤ qsum l := by
  induction l with
  | nil => simp [qsum]
  | cons a t ih =>
      simp only [qsum, List.foldr_cons]
      have ha := h a (List.mem_cons_self a t)
      have ht := ih (fun x hx => h x (List.mem_cons_of_mem a hx))
      simp only [qsum] at ht
      linarith

theorem qsum_pos (l : List ℚ) (h : ∀ x ∈ l, 0 ≤ x) (x : ℚ) (hx : x ∈ l) (hxp : 0 < x) :
    0 < qsum l := by
  induction l with
  | nil => cases hx
  | cons a t ih =>
      simp only [qsum, List.foldr_cons]
      have ht : (0:ℚ) ≤ qsum t :=
        qsum_nonneg t (fun z hz => h z (List.mem_cons_of_mem a hz))
      simp only [qsum] at ht
      rcases List.mem_cons.mp hx with hxa | hxt
      · subst hxa; linarith
      · have := ih (fun z hz => h z (List.mem_cons_of_mem a hz)) hxt
        have ha := h a (List.mem_cons_self a t)
        simp only [qsum] at this
        linarith

theorem length_absSeasonalDiff_one (y : List ℚ) :
    (absSeasonalDiff 1 y).length = y.length - 1 := by
  simp [absSeasonalDiff]

theorem absSeasonalDiff_one_get (y : List ℚ) (i : ℕ) (h : i + 1 < y.length) :
    (absSeasonalDiff 1 y).get ⟨i, by rw [length_absSeasonalDiff_one]; omega⟩ =
      |y.get ⟨i + 1, h⟩ - y.get ⟨i, Nat.lt_of_succ_lt h⟩| := by
  simp only [absSeasonalDiff, List.get_eq_getElem, List.getElem_map, List.getElem_zip,
    List.getElem_drop, List.getElem_take]
  simp only [Nat.add_comm 1 i]

theorem absSeasonalDiff_one_nonneg (y : List ℚ) :
    ∀ x ∈ absSeasonalDiff 1 y, 0 ≤ x := by
  intro x hx
  simp only [absSeasonalDiff, List.mem_map] at hx
  obtain ⟨ab, _, rfl⟩ := hx
  exact abs_nonneg _

theorem zip_self_abs_sub (y : List ℚ) :
    (List.zip y y).map (fun ab => |ab.1 - ab.2|) = List.replicate y.length 0 := by
  induction y with
  | nil => rfl
  | cons a t ih => simp [List.replicate_succ, ih]

theorem qsum_replicate_zero (n : ℕ) : qsum (List.replicate n 0) = 0 := by
  induction n with
  | zero => rfl
  | succ m ih => simp [List.replicate_succ, qsum, List.foldr_cons] at ih ⊢; exact ih

/-- `C8` counterexample: for the constant series `y = [1, 1]`, `mase(y, y,
y_train=y)` returns `nan` (the naive baseline error is exactly zero), not
the `0` the claim asserts for every `y`. -/
theorem C8_mase_identity_counterexample :
    mase [1, 1] [1, 1] (some [1, 1]) 1 = Except.ok PyF.nan ∧ PyF.nan ≠ PyF.fin 0 := by
  constructor
  · simp only [mase, absSeasonalDiff, qmean, qsum]
    norm_num
  · decide

/-- `C8` (amended): `mase(y, y, y_train=y) = 0` for every `y` having at
least one pair of unequal consecutive values; for constant or singleton `y`
the naive baseline error is zero and `mase` returns `nan` instead. -/
theorem C8_mase_identity (y : List ℚ) (i : ℕ) (h : i + 1 < y.length)
    (hne : y.get ⟨i, Nat.lt_of_succ_lt h⟩ ≠ y.get ⟨i + 1, h⟩) :
    mase y y (some y) 1 = Except.ok (PyF.fin 0) := by
  have hlen : 1 ≤ y.length := by omega
  have hnlen : (absSeasonalDiff 1 y).length = y.length - 1 := length_absSeasonalDiff_one y
  have hipos : i < (absSeasonalDiff 1 y).length := by omega
  have helem : (absSeasonalDiff 1 y).get ⟨i, hipos⟩ =
      |y.get ⟨i + 1, h⟩ - y.get ⟨i, Nat.lt_of_succ_lt h⟩| := absSeasonalDiff_one_get y i h
  have hpos : 0 < (absSeasonalDiff 1 y).get ⟨i, hipos⟩ := by
    rw [helem]
    exact abs_pos.mpr (sub_ne_zero.mpr (Ne.symm hne))
  have hsum : 0 < qsum (absSeasonalDiff 1 y) :=
    qsum_pos _ (absSeasonalDiff_one_nonneg y) _ (List.get_mem _ _ hipos) hpos
  have hqm : qmean (absSeasonalDiff 1 y) ≠ 0 := by
    unfold qmean
    have : (0:ℚ) < (absSeasonalDiff 1 y).length := by
      exact_mod_cast (by omega : 0 < (absSeasonalDiff 1 y).length)
    positivity
  have hfe : qmean ((List.zip y y).map (fun ab => |ab.1 - ab.2|)) = 0 := by
    rw [zip_self_abs_sub, qmean, qsum_replicate_zero, zero_div]
  unfold mase
  rw [if_neg (by simp)]
  simp only [if_pos hlen]
  rw [if_neg (by
    push_neg
    refine ⟨by omega, hqm⟩)]
  rw [hfe, zero_div]

/-- `C8` witness: the amended identity at `y = [1, 2]`. -/
theorem C8_mase_identity_witness :
    mase [1, 2] [1, 2] (some [1, 2]) 1 = Except.ok (PyF.fin 0) :=
  C8_mase_identity [1, 2] 0 (by decide) (by norm_num)

/-! Helper lemmas about `split_data`. -/

theorem splitLoop_length (b : Backtester) (data : List ℚ) (dates : List String)
    (hstep : 1 ≤ b.stepSize) :
    ∀ (fuel start num : ℕ),
      start + b.trainSize + b.testSize ≤ data.length →
      (data.length - (start + b.trainSize + b.testSize)) / b.stepSize < fuel →
      (splitLoop b data dates fuel start num).length =
        (data.length - (start + b.trainSize + b.testSize)) / b.stepSize + 1 := by
  intro fuel
  induction fuel with
  | zero => intro start num _ hf; exact absurd hf (Nat.not_lt_zero _)
  | succ f ih =>
      intro start num hg hf
      rw [splitLoop]
      rw [if_pos hg]
      simp only [stepForward]
      cases b.strategy with
      | rolling =>
          by_cases hnext : data.length < start + b.stepSize + b.trainSize + b.testSize
          · rw [if_pos hnext]
            have hsmall : data.length - (start + b.trainSize + b.testSize) < b.stepSize := by
              omega
            simp only [List.length_singleton, Nat.div_eq_of_lt hsmall]
          · rw [if_neg hnext]
            push_neg at hnext
            have hge : b.stepSize ≤ data.length - (start + b.trainSize + b.testSize) := by
              omega
            have hdiv := Nat.div_eq_sub_div (by omega : 0 < b.stepSize) hge
            have harg : data.length - (start + b.trainSize + b.testSize) - b.stepSize =
                data.length - (start + b.stepSize + b.trainSize + b.testSize) := by
              omega
            rw [harg] at hdiv
            have hrec := ih (start + b.stepSize) (num + 1) (by omega) (by omega)
            simp only [List.length_cons, hrec]
            omega
      | expanding =>
          by_cases hnext : data.length < start + b.stepSize + b.trainSize + b.testSize
          · rw [if_pos hnext]
            have hsmall : data.length - (start + b.trainSize + b.testSize) < b.stepSize := by
              omega
            simp only [List.length_singleton, Nat.div_eq_of_lt hsmall]
          · rw [if_neg hnext]
            push_neg at hnext
            have hge : b.stepSize ≤ data.length - (start + b.trainSize + b.testSize) := by
              omega
            have hdiv := Nat.div_eq_sub_div (by omega : 0 < b.stepSize) hge
            have harg : data.length - (start + b.trainSize + b.testSize) - b.stepSize =
                data.length - (start + b.stepSize + b.trainSize + b.testSize) := by
              omega
            rw [harg] at hdiv
            have hrec := ih (start + b.stepSize) (num + 1) (by omega) (by omega)
            simp only [List.length_cons, hrec]
            omega

/-- `C4`: `split_data` returns no splits when the series is shorter than
`train_size + test_size`, and otherwise (for a positive `step_size`, without
which the Python loop would not terminate) exactly
`(len − train − test) / step + 1` splits; the spec's 300-point scenario with
`train_size=200, test_size=50, step_size=25` yields exactly 3 splits. -/
theorem C4_splitData_count :
    (∀ (b : Backtester) (data : List ℚ) (dates : List String),
      data.length < b.trainSize + b.testSize → splitData b data dates = []) ∧
    (∀ (b : Backtester) (data : List ℚ) (dates : List String),
      b.trainSize + b.testSize ≤ data.length → 1 ≤ b.stepSize →
      (splitData b data dates).length =
        (data.length - b.trainSize - b.testSize) / b.stepSize + 1) ∧
    (splitData { trainSize := 200, testSize := 50, stepSize := 25, strategy := Strategy.rolling }
      (List.replicate 300 0) []).length = 3 := by
  have hmain : ∀ (b : Backtester) (data : List ℚ) (dates : List String),
      b.trainSize + b.testSize ≤ data.length → 1 ≤ b.stepSize →
      (splitData b data dates).length =
        (data.length - b.trainSize - b.testSize) / b.stepSize + 1 := by
    intro b data dates hge hstep
    unfold splitData
    rw [if_neg (by omega)]
    have := splitLoop_length b data dates hstep (data.length + 1) 0 1 (by omega)
      (by
        have h1 : (data.length - (0 + b.trainSize + b.testSize)) / b.stepSize ≤
            data.length - (0 + b.trainSize + b.testSize) := Nat.div_le_self _ _
        omega)
    rw [this]
    congr 2
    omega
  refine ⟨?_, hmain, ?_⟩
  · intro b data dates hlt
    unfold splitData
    rw [if_pos hlt]
  · rw [hmain _ _ _ (by rw [List.length_replicate]; exact (by omega : 200 + 50 ≤ 300)) (by norm_num)]
    rw [List.length_replicate]
    exact (by omega : (300 - 200 - 50) / 25 + 1 = 3)

set_option maxRecDepth 4000 in
/-- `C4` witness: the count formula at the spec's 300-point scenario. -/
theorem C4_splitData_count_witness :
    (splitData { trainSize := 200, testSize := 50, stepSize := 25, strategy := Strategy.rolling }
      (List.replicate 300 0) []).length =
      ((List.replicate 300 (0:ℚ)).length - 200 - 50) / 25 + 1 :=
  C4_splitData_count.2.1
    { trainSize := 200, testSize := 50, stepSize := 25, strategy := Strategy.rolling }
    (List.replicate 300 0) []
    (by rw [List.length_replicate]; exact (by omega : 200 + 50 ≤ 300)) (by norm_num)

/-- `C7`: `split_data` under the `rolling` strategy and under the
`expanding` strategy produce identical split lists for every series, date
list and parameter triple — the expanding branch advances the start index by
`step_size` exactly as the rolling branch does and never grows the training
span. -/
theorem C7_rolling_eq_expanding :
    ∀ (ts te st : ℕ) (data : List ℚ) (dates : List String),
      splitData { trainSize := ts, testSize := te, stepSize := st,
                  strategy := Strategy.rolling } data dates =
      splitData { trainSize := ts, testSize := te, stepSize := st,
                  strategy := Strategy.expanding } data dates := by
  intro ts te st data dates
  unfold splitData
  have hloop : ∀ (fuel start num : ℕ),
      splitLoop { trainSize := ts, testSize := te, stepSize := st,
                  strategy := Strategy.rolling } data dates fuel start num =
      splitLoop { trainSize := ts, testSize := te, stepSize := st,
                  strategy := Strategy.expanding } data dates fuel start num := by
    intro fuel
    induction fuel with
    | zero => intro start num; rfl
    | succ f ih =>
        intro start num
        rw [splitLoop, splitLoop]
        simp only [stepForward, ih]
  rw [hloop]

/-- `C1` (code bug): saving a version whose `rmse` (2.0) is **not** lower
than the stored champion's (1.0) still transitions the new version to stage
`Champion`: the `if new_rmse < champion_rmse` block of
`_promote_to_champion_if_better` returns only when taken, and the
not-better path falls through to the transition that the source's own
comment reserves for the "no champion exists" case — contradicting the
method's docstring ("if it's better than current champion") and the spec's
strictly-lower promotion rule. -/
theorem C1_promote_fallthrough_bug :
    (PyF.fin 2).lt (PyF.fin 1) = false ∧
    (saveModel
        [{ name := "m", version := 1, stage := "Champion", metrics := [("rmse", PyF.fin 1)] }]
        "m" [("rmse", PyF.fin 2)]).2 =
      [{ name := "m", version := 1, stage := "Champion", metrics := [("rmse", PyF.fin 1)] },
       { name := "m", version := 2, stage := "Champion", metrics := [("rmse", PyF.fin 2)] }] := by
  constructor
  · simp only [PyF.lt, decide_eq_false_iff_not]
    norm_num
  · rfl

/-- `C10`: on a cache miss with no registry model available,
`get_model(…, fallback_to_new=True)` returns a fresh untrained model
without inserting it into the cache — the cache map is unchanged, and an
identical second call constructs a distinct fresh instance instead of
returning the first. -/
theorem C10_fallback_not_cached
    (st : LoaderState) (mt aliasOrVersion : String)
    (hmiss : st.modelCache.find? (fun kv => kv.1 = pyUpper mt ++ "@" ++ aliasOrVersion) = none)
    (hreg : ∀ reg, st.registry = some reg →
      reg ("StockNeuro_" ++ pyUpper mt) aliasOrVersion = none)
    (hmtu : pyUpper mt = "LSTM" ∨ pyUpper mt = "RNN") :
    (getModel st mt aliasOrVersion true).1 =
        some (LoaderModel.fresh (pyUpper mt) 50 false st.nextObjectId) ∧
    (getModel st mt aliasOrVersion true).2.modelCache = st.modelCache ∧
    (getModel (getModel st mt aliasOrVersion true).2 mt aliasOrVersion true).1 =
        some (LoaderModel.fresh (pyUpper mt) 50 false (st.nextObjectId + 1)) ∧
    (getModel st mt aliasOrVersion true).1 ≠
        (getModel (getModel st mt aliasOrVersion true).2 mt aliasOrVersion true).1 ∧
    (getModel (getModel st mt aliasOrVersion true).2 mt aliasOrVersion true).2.modelCache =
        st.modelCache := by
  have hfrom :
      (match st.registry with
        | some reg => (reg ("StockNeuro_" ++ pyUpper mt) aliasOrVersion).map LoaderModel.fromRegistry
        | none => none) = (none : Option LoaderModel) := by
    cases hr : st.registry with
    | none => rfl
    | some reg => simp [hreg reg hr]
  have step : ∀ s : LoaderState, s.modelCache = st.modelCache → s.registry = st.registry →
      getModel s mt aliasOrVersion true =
        (some (LoaderModel.fresh (pyUpper mt) 50 false s.nextObjectId),
          { s with nextObjectId := s.nextObjectId + 1 }) := by
    intro s hc hrg
    unfold getModel
    simp only [hc, hrg, hmiss, hfrom]
    rcases hmtu with h | h
    · simp [h]
    · rw [h]
      have hne : ("RNN" : String) ≠ "LSTM" := by decide
      rw [if_neg hne, if_pos rfl]
      simp
  have h1 := step st rfl rfl
  have h2 := step { st with nextObjectId := st.nextObjectId + 1 } rfl rfl
  rw [h1]
  refine ⟨rfl, rfl, ?_, ?_, ?_⟩
  · rw [h2]
  · rw [h2]
    simp
  · rw [h2]

/-- `C10` witness: the fallback path on a fresh loader with MLflow disabled
and an empty cache, requested for `"LSTM"`. -/
theorem C10_fallback_not_cached_witness :
    (getModel emptyLoader "LSTM" "champion" true).1 =
      some (LoaderModel.fresh "LSTM" 50 false 0) ∧
    (getModel emptyLoader "LSTM" "champion" true).2.modelCache = [] ∧
    (getModel (getModel emptyLoader "LSTM" "champion" true).2 "LSTM" "champion" true).1 =
      some (LoaderModel.fresh "LSTM" 50 false 1) ∧
    (getModel emptyLoader "LSTM" "champion" true).1 ≠
      (getModel (getModel emptyLoader "LSTM" "champion" true).2 "LSTM" "champion" true).1 ∧
    (getModel (getModel emptyLoader "LSTM" "champion" true).2
        "LSTM" "champion" true).2.modelCache = [] :=
  C10_fallback_not_cached emptyLoader
    "LSTM" "champion" rfl (fun reg h => by cases h) (Or.inl (by decide))

/-! Helper lemmas about `backtest`. -/

theorem backtestLoop_eq {M : Type} (sqrtQ : ℚ → ℚ)
    (trainFn : List ℚ → Except String M)
    (predictFn : M → List ℚ → Except String (List ℚ))
    (dates : List String) :
    ∀ splits : List Split,
      backtestLoop sqrtQ trainFn predictFn dates splits =
        (splits.map (runSplit sqrtQ trainFn predictFn dates),
         okPredictions (splits.map (runSplit sqrtQ trainFn predictFn dates)),
         okActuals (splits.map (runSplit sqrtQ trainFn predictFn dates))) := by
  intro splits
  induction splits with
  | nil => rfl
  | cons s rest ih =>
      rw [backtestLoop]
      rw [ih]
      cases h : runSplit sqrtQ trainFn predictFn dates s with
      | ok o => simp [h, okPredictions, okActuals, List.flatMap_cons]
      | err n e => simp [h, okPredictions, okActuals, List.flatMap_cons]

theorem calcAllMetrics_ok_lengths (sqrtQ : ℚ → ℚ) (yTrue yPred : List ℚ)
    (yTrain : Option (List ℚ)) (m : AllMetrics)
    (h : calcAllMetrics sqrtQ yTrue yPred yTrain = Except.ok m) :
    yTrue.length = yPred.length ∧ yTrue.length ≠ 0 := by
  unfold calcAllMetrics at h
  by_cases hc : yTrue.length ≠ yPred.length ∨ yTrue.length = 0
  · rw [if_pos hc] at h
    cases h
  · rw [if_neg hc] at h
    push_neg at hc
    exact hc

theorem calcAllMetrics_ok_of_lengths (sqrtQ : ℚ → ℚ) (yTrue yPred : List ℚ)
    (yTrain : Option (List ℚ))
    (hl : yTrue.length = yPred.length) (hn : yTrue.length ≠ 0) :
    ∃ m, calcAllMetrics sqrtQ yTrue yPred yTrain = Except.ok m := by
  unfold calcAllMetrics
  rw [if_neg (by push_neg; exact ⟨hl, hn⟩)]
  exact ⟨_, rfl⟩

theorem runSplit_ok_lengths {M : Type} (sqrtQ : ℚ → ℚ)
    (trainFn : List ℚ → Except String M)
    (predictFn : M → List ℚ → Except String (List ℚ))
    (dates : List String) (split : Split) (o : SplitOk)
    (h : runSplit sqrtQ trainFn predictFn dates split = SplitResult.ok o) :
    o.actuals.length = o.predictions.length ∧ o.actuals.length ≠ 0 := by
  unfold runSplit at h
  cases ht : trainFn split.trainData with
  | error e => rw [ht] at h; simp [bind, Except.bind] at h
  | ok model =>
      rw [ht] at h
      simp only [bind, Except.bind] at h
      cases hp : predictFn model split.testData with
      | error e => rw [hp] at h; simp at h
      | ok predictions =>
          rw [hp] at h
          simp only at h
          cases hm : calcAllMetrics sqrtQ split.testData predictions (some split.trainData) with
          | error e => rw [hm] at h; simp at h
          | ok metrics =>
              rw [hm] at h
              simp only [SplitResult.ok.injEq] at h
              have hlen := calcAllMetrics_ok_lengths sqrtQ split.testData predictions
                (some split.trainData) metrics hm
              rw [← h]
              exact hlen

theorem okActuals_length_eq {M : Type} (sqrtQ : ℚ → ℚ)
    (trainFn : List ℚ → Except String M)
    (predictFn : M → List ℚ → Except String (List ℚ))
    (dates : List String) :
    ∀ splits : List Split,
      (okActuals (splits.map (runSplit sqrtQ trainFn predictFn dates))).length =
        (okPredictions (splits.map (runSplit sqrtQ trainFn predictFn dates))).length := by
  intro splits
  induction splits with
  | nil => rfl
  | cons s rest ih =>
      simp only [List.map_cons]
      cases h : runSplit sqrtQ trainFn predictFn dates s with
      | ok o =>
          have := (runSplit_ok_lengths sqrtQ trainFn predictFn dates s o h).1
          simp [okPredictions, okActuals, List.flatMap_cons, okPredictions, okActuals] at ih ⊢
          omega
      | err n e =>
          simpa [okPredictions, okActuals, List.flatMap_cons] using ih

theorem runSplit_err_of_train {M : Type} (sqrtQ : ℚ → ℚ)
    (trainFn : List ℚ → Except String M)
    (predictFn : M → List ℚ → Except String (List ℚ))
    (dates : List String) (split : Split) (e : String)
    (h : trainFn split.trainData = Except.error e) :
    runSplit sqrtQ trainFn predictFn dates split = SplitResult.err split.splitNumber e := by
  unfold runSplit
  rw [h]
  rfl

theorem runSplit_err_of_predict {M : Type} (sqrtQ : ℚ → ℚ)
    (trainFn : List ℚ → Except String M)
    (predictFn : M → List ℚ → Except String (List ℚ))
    (dates : List String) (split : Split) (model : M) (e : String)
    (ht : trainFn split.trainData = Except.ok model)
    (hp : predictFn model split.testData = Except.error e) :
    runSplit sqrtQ trainFn predictFn dates split = SplitResult.err split.splitNumber e := by
  unfold runSplit
  rw [ht]
  simp only [bind, Except.bind]
  rw [hp]

/-- `C5`: whenever any splits are generated, `backtest` returns the full
result dict; a split whose `model_train_fn` or `model_predict_fn` raises is
recorded as an error entry carrying its `split_number` and the error string,
every split still contributes one entry in order (so the remaining splits
are all evaluated), `total_splits` counts all generated splits, and
`aggregate_metrics` is computed from exactly the successful splits' pooled
predictions and actuals (the empty dict when nothing was pooled). -/
theorem C5_backtest_partial_failure {M : Type} (b : Backtester) (sqrtQ : ℚ → ℚ)
    (data : List ℚ) (dates : List String)
    (trainFn : List ℚ → Except String M)
    (predictFn : M → List ℚ → Except String (List ℚ))
    (hne : splitData b data dates ≠ []) :
    ∃ out, backtest b sqrtQ data dates trainFn predictFn =
        Except.ok (BacktestOutcome.result out) ∧
      out.totalSplits = (splitData b data dates).length ∧
      out.splitResults =
        (splitData b data dates).map (runSplit sqrtQ trainFn predictFn dates) ∧
      (∀ (i : ℕ) (split : Split) (e : String),
        (splitData b data dates)[i]? = some split →
        (trainFn split.trainData = Except.error e ∨
          ∃ model, trainFn split.trainData = Except.ok model ∧
            predictFn model split.testData = Except.error e) →
        out.splitResults[i]? = some (SplitResult.err split.splitNumber e)) ∧
      ((okPredictions out.splitResults = [] → out.aggregateMetrics = none) ∧
        (okPredictions out.splitResults ≠ [] →
          ∃ agg, calcAllMetrics sqrtQ (okActuals out.splitResults)
              (okPredictions out.splitResults) none = Except.ok agg ∧
            out.aggregateMetrics = some agg)) := by
  have hlen0 : (splitData b data dates).length ≠ 0 := by
    intro h
    exact hne (List.eq_nil_of_length_eq_zero h)
  set splits := splitData b data dates with hsplits
  set rs := splits.map (runSplit sqrtQ trainFn predictFn dates) with hrs
  have hloop := backtestLoop_eq sqrtQ trainFn predictFn dates splits
  have hoklen : (okActuals rs).length = (okPredictions rs).length :=
    okActuals_length_eq sqrtQ trainFn predictFn dates splits
  have hrest : ∀ out2 : BacktestResult,
      out2.splitResults = rs →
      (∀ (i : ℕ) (split : Split) (e : String),
        splits[i]? = some split →
        (trainFn split.trainData = Except.error e ∨
          ∃ model, trainFn split.trainData = Except.ok model ∧
            predictFn model split.testData = Except.error e) →
        out2.splitResults[i]? = some (SplitResult.err split.splitNumber e)) := by
    intro out2 hout i split e hi herr
    rw [hout, hrs]
    have hlt : i < splits.length := by
      by_contra hge
      rw [List.getElem?_eq_none (by omega)] at hi
      cases hi
    rw [List.getElem?_eq_getElem (by simpa using hlt)]
    have hsp : splits[i] = split := by
      rw [List.getElem?_eq_getElem hlt] at hi
      injection hi
    rcases herr with h | ⟨model, ht, hp⟩
    · simp only [List.getElem_map, hsp]
      rw [runSplit_err_of_train sqrtQ trainFn predictFn dates split e h]
    · simp only [List.getElem_map, hsp]
      rw [runSplit_err_of_predict sqrtQ trainFn predictFn dates split model e ht hp]
  unfold backtest
  rw [if_neg hlen0, ← hsplits]
  rw [hloop]
  by_cases hp : 0 < (okPredictions rs).length ∧ 0 < (okActuals rs).length
  · obtain ⟨agg, hagg⟩ := calcAllMetrics_ok_of_lengths sqrtQ (okActuals rs)
      (okPredictions rs) none hoklen (by omega)
    rw [if_pos hp]
    simp only [bind, Except.bind, hagg]
    refine ⟨_, rfl, rfl, rfl, hrest _ rfl, ?_, ?_⟩
    · intro hnil
      rw [hnil] at hp
      simp at hp
    · intro _
      exact ⟨agg, hagg, rfl⟩
  · rw [if_neg hp]
    simp only [bind, Except.bind]
    refine ⟨_, rfl, rfl, rfl, hrest _ rfl, ?_, ?_⟩
    · intro _
      rfl
    · intro hnnil
      exfalso
      apply hp
      constructor
      · exact List.length_pos_of_ne_nil hnnil
      · rw [hoklen]
        exact List.length_pos_of_ne_nil hnnil

/-- `C5` witness: a three-split backtest of `[1, 2, 3, 4]` (train 1 / test 1
/ step 1) whose training function fails on the second split. -/
theorem C5_backtest_partial_failure_witness :
    ∃ out, backtest tinyBacktester id [1, 2, 3, 4] [] boomTrainFn echoPredictFn =
        Except.ok (BacktestOutcome.result out) ∧
      out.totalSplits = (splitData tinyBacktester [1, 2, 3, 4] []).length ∧
      out.splitResults = (splitData tinyBacktester [1, 2, 3, 4] []).map
        (runSplit id boomTrainFn echoPredictFn []) ∧
      (∀ (i : ℕ) (split : Split) (e : String),
        (splitData tinyBacktester [1, 2, 3, 4] [])[i]? = some split →
        (boomTrainFn split.trainData = Except.error e ∨
          ∃ model, boomTrainFn split.trainData = Except.ok model ∧
            echoPredictFn model split.testData = Except.error e) →
        out.splitResults[i]? = some (SplitResult.err split.splitNumber e)) ∧
      ((okPredictions out.splitResults = [] → out.aggregateMetrics = none) ∧
        (okPredictions out.splitResults ≠ [] →
          ∃ agg, calcAllMetrics id (okActuals out.splitResults)
              (okPredictions out.splitResults) none = Except.ok agg ∧
            out.aggregateMetrics = some agg)) :=
  C5_backtest_partial_failure tinyBacktester id [1, 2, 3, 4] [] boomTrainFn echoPredictFn
    (by decide)

/-! Helper lemmas about the conformal coverage history. -/

theorem calibrate_history (st : ConformalState) (preds acts : List ℚ) (st2 : ConformalState)
    (h : calibrate st preds acts = Except.ok st2) :
    st2.coverageHistory = st.coverageHistory := by
  unfold calibrate at h
  by_cases h1 : preds.length ≠ acts.length
  · rw [if_pos h1] at h; cases h
  · rw [if_neg h1] at h
    by_cases h2 : ((List.zip preds acts).map (fun pa => |pa.1 - pa.2|)).length = 0
    · rw [if_pos h2] at h; cases h
    · rw [if_neg h2] at h
      by_cases h3 : min ((1 + (((List.zip preds acts).map
            (fun pa => |pa.1 - pa.2|)).length : ℚ)) * (1 - st.alpha) /
            ((List.zip preds acts).map (fun pa => |pa.1 - pa.2|)).length) 1 < 0
      · rw [if_pos h3] at h; cases h
      · rw [if_neg h3] at h
        cases h
        rfl

theorem updateCoverage_history (st : ConformalState) (preds acts : List ℚ)
    (st2 : ConformalState) (h : updateCoverage st preds acts = Except.ok st2) :
    (st.adaptive = false → st2 = st) ∧
    (st.adaptive = true → ∃ c, st2.coverageHistory =
      (st.coverageHistory ++ [c]).drop (st.coverageHistory.length + 1 - 100)) := by
  unfold updateCoverage at h
  by_cases ha : st.adaptive = false
  · rw [if_pos ha] at h
    cases h
    exact ⟨fun _ => rfl, fun ht => by rw [ha] at ht; cases ht⟩
  · rw [if_neg ha] at h
    simp only [bind, Except.bind] at h
    cases hq : predictWithIntervals st preds none with
    | error e => rw [hq] at h; cases h
    | ok iv =>
        rw [hq] at h
        simp only at h
        by_cases hl : acts.length ≠ iv.lower.length
        · rw [if_pos hl] at h; cases h
        · rw [if_neg hl] at h
          simp only [Except.ok.injEq] at h
          refine ⟨fun hf => absurd hf ha, fun _ => ?_⟩
          refine ⟨if acts.length = 0 then PyF.nan else
            PyF.fin ((((acts.zip (iv.lower.zip iv.upper)).countP
              (fun x => decide (x.2.1 ≤ x.1 ∧ x.1 ≤ x.2.2))) : ℚ) / acts.length), ?_⟩
          rw [← h]
          simp only [List.length_append, List.length_singleton]
          by_cases hc : 100 < st.coverageHistory.length + 1
          · rw [if_pos hc]
          · rw [if_neg hc]
            have : st.coverageHistory.length + 1 - 100 = 0 := by omega
            rw [this, List.drop_zero]

theorem applyOp_history_le (st : ConformalState) (op : ConformalOp)
    (h : st.coverageHistory.length ≤ 100) :
    (applyOp st op).coverageHistory.length ≤ 100 := by
  cases op with
  | calibrateOp p a =>
      unfold applyOp
      simp only
      cases hc : calibrate st p a with
      | error e => exact h
      | ok st2 => rw [calibrate_history st p a st2 hc]; exact h
  | predictOp p aa => exact h
  | updateOp p a =>
      unfold applyOp
      simp only
      cases hc : updateCoverage st p a with
      | error e => exact h
      | ok st2 =>
          rcases updateCoverage_history st p a st2 hc with ⟨hfalse, htrue⟩
          by_cases ha : st.adaptive = true
          · obtain ⟨c, hist⟩ := htrue ha
            simp only [hist, List.length_drop, List.length_append, List.length_singleton]
            omega
          · rw [hfalse (by revert ha; cases st.adaptive <;> simp)]
            exact h

theorem runOps_history_le (ops : List ConformalOp) :
    ∀ st : ConformalState, st.coverageHistory.length ≤ 100 →
      (runOps st ops).coverageHistory.length ≤ 100 := by
  induction ops with
  | nil => intro st h; exact h
  | cons op rest ih =>
      intro st h
      exact ih (applyOp st op) (applyOp_history_le st op h)

/-- `C9`: starting from a fresh `ConformalPrediction`, every sequence of
`calibrate` / `predict_with_intervals` / `update_coverage` calls leaves
`coverage_history` with at most 100 entries; moreover a successful
`update_coverage` on an adaptive instance appends the newest observation at
the end and drops exactly the oldest entries beyond the cap (and preserves
the ≤ 100 bound). -/
theorem C9_coverage_history_bounded :
    (∀ (coverage : ℚ) (alpha : Option ℚ) (adaptive : Bool) (ops : List ConformalOp),
      (runOps (mkConformal coverage alpha adaptive) ops).coverageHistory.length ≤ 100) ∧
    (∀ (st : ConformalState) (preds acts : List ℚ) (st2 : ConformalState),
      st.coverageHistory.length ≤ 100 →
      updateCoverage st preds acts = Except.ok st2 →
      st2.coverageHistory.length ≤ 100 ∧
      (st.adaptive = true → ∃ c, st2.coverageHistory =
        (st.coverageHistory ++ [c]).drop (st.coverageHistory.length + 1 - 100))) := by
  constructor
  · intro coverage alpha adaptive ops
    exact runOps_history_le ops (mkConformal coverage alpha adaptive) (by simp [mkConformal])
  · intro st preds acts st2 hle hupd
    rcases updateCoverage_history st preds acts st2 hupd with ⟨hfalse, htrue⟩
    constructor
    · by_cases ha : st.adaptive = true
      · obtain ⟨c, hist⟩ := htrue ha
        simp only [hist, List.length_drop, List.length_append, List.length_singleton]
        omega
      · rw [hfalse (by revert ha; cases st.adaptive <;> simp)]
        exact hle
    · exact htrue

/-- `C9` witness: one `update_coverage([1], [1])` on a calibrated adaptive
state with empty history appends the single (fully covered) observation. -/
theorem C9_coverage_history_bounded_witness :
    updConformal.coverageHistory.length ≤ 100 ∧
    (calConformal.adaptive = true → ∃ c, updConformal.coverageHistory =
      (calConformal.coverageHistory ++ [c]).drop
        (calConformal.coverageHistory.length + 1 - 100)) :=
  C9_coverage_history_bounded.2 calConformal [1] [1] updConformal
    (by decide)
    (by
      unfold updateCoverage predictWithIntervals updConformal calConformal
      simp only [bind, Except.bind]
      norm_num [List.countP_cons, List.countP_nil, Bool.and_eq_true, decide_eq_true_eq])

/-! Helper lemmas for the conformal coverage guarantee. -/

theorem getD_eq_get (l : List ℚ) (n : ℕ) (d : ℚ) (h : n < l.length) :
    l.getD n d = l.get ⟨n, h⟩ := by
  simp [List.getD_eq_getElem?_getD, List.getElem?_eq_getElem h]

theorem getD_eq_default (l : List ℚ) (n : ℕ) (d : ℚ) (h : l.length ≤ n) :
    l.getD n d = d := by
  simp [List.getD_eq_getElem?_getD, List.getElem?_eq_none h]

theorem sorted_countP_le (v : ℚ) :
    ∀ (s : List ℚ), List.Sorted (· ≤ ·) s → ∀ (k : ℕ) (hk : k < s.length),
      s.get ⟨k, hk⟩ ≤ v → k + 1 ≤ s.countP (fun x => decide (x ≤ v)) := by
  intro s
  induction s with
  | nil => intro _ k hk; exact absurd hk (Nat.not_lt_zero k)
  | cons x t ih =>
      intro hs k hk hget
      rw [List.sorted_cons] at hs
      rw [List.countP_cons]
      cases k with
      | zero =>
          have hx : x ≤ v := hget
          rw [if_pos (decide_eq_true hx)]
          omega
      | succ j =>
          have hjt : j < t.length := by simpa using hk
          have hgt : t.get ⟨j, hjt⟩ ≤ v := hget
          have hx : x ≤ v := le_trans (hs.1 _ (List.get_mem t j hjt)) hgt
          have hrec := ih hs.2 j hjt hgt
          rw [if_pos (decide_eq_true hx)]
          omega

theorem coveredCount_eq_scores (v : ℚ) :
    ∀ (preds acts : List ℚ), preds.length = acts.length →
      coveredCount (preds.map (fun p => p - v)) (preds.map (fun p => p + v)) acts =
        ((List.zip preds acts).map (fun pa => |pa.1 - pa.2|)).countP
          (fun s => decide (s ≤ v)) := by
  intro preds
  induction preds with
  | nil =>
      intro acts h
      cases acts with
      | nil => rfl
      | cons a t => simp at h
  | cons p pt ih =>
      intro acts h
      cases acts with
      | nil => simp at h
      | cons a at2 =>
          simp only [List.map_cons, List.zip_cons_cons]
          unfold coveredCount
          simp only [List.zip_cons_cons, List.countP_cons]
          have hcond : decide ((p - v : ℚ) ≤ a ∧ a ≤ p + v) = decide (|p - a| ≤ v) := by
            apply decide_eq_decide.mpr
            rw [abs_sub_le_iff]
            constructor
            · rintro ⟨h1, h2⟩
              constructor <;> linarith
            · rintro ⟨h1, h2⟩
              constructor <;> linarith
          have htail := ih at2 (by simpa using h)
          unfold coveredCount at htail
          rw [htail, hcond]


theorem sorted_rel_get (s : List ℚ) (hs : List.Sorted (· ≤ ·) s) (i j : ℕ)
    (hi : i < s.length) (hj : j < s.length) (hij : i < j) :
    s.get ⟨i, hi⟩ ≤ s.get ⟨j, hj⟩ :=
  List.Sorted.rel_get_of_lt hs hij

theorem countP_npQuantileLinear (scores : List ℚ) (p : ℚ) (hp0 : 0 ≤ p) (hp1 : p ≤ 1)
    (hn : 1 ≤ scores.length) :
    (⌊p * ((scores.length : ℚ) - 1)⌋).toNat + 1 ≤
      scores.countP (fun x => decide (x ≤ npQuantileLinear scores p)) := by
  have hperm := List.perm_insertionSort (· ≤ ·) scores
  have hsort := List.sorted_insertionSort (· ≤ ·) scores
  have hslen : (scores.insertionSort (· ≤ ·)).length = scores.length := hperm.length_eq
  have hn1 : (1:ℚ) ≤ (scores.length : ℚ) := by exact_mod_cast hn
  have hh0 : 0 ≤ p * ((scores.length : ℚ) - 1) := mul_nonneg hp0 (by linarith)
  have hfl0 : 0 ≤ ⌊p * ((scores.length : ℚ) - 1)⌋ := Int.floor_nonneg.mpr hh0
  have hkh : ((⌊p * ((scores.length : ℚ) - 1)⌋).toNat : ℚ) ≤ p * ((scores.length : ℚ) - 1) := by
    have h1 : (((⌊p * ((scores.length : ℚ) - 1)⌋).toNat : ℤ) : ℚ) =
        ((⌊p * ((scores.length : ℚ) - 1)⌋ : ℤ) : ℚ) := by
      rw [Int.toNat_of_nonneg hfl0]
    push_cast at h1
    rw [h1]
    exact Int.floor_le _
  have hkn : (⌊p * ((scores.length : ℚ) - 1)⌋).toNat < scores.length := by
    have hle : p * ((scores.length : ℚ) - 1) ≤ (scores.length : ℚ) - 1 := by
      nlinarith
    have h2 : (⌊p * ((scores.length : ℚ) - 1)⌋ : ℚ) ≤ (scores.length : ℚ) - 1 :=
      le_trans (Int.floor_le _) hle
    have h3 : ⌊p * ((scores.length : ℚ) - 1)⌋ ≤ (scores.length : ℤ) - 1 := by
      exact_mod_cast h2
    omega
  have hkn2 : (⌊p * ((scores.length : ℚ) - 1)⌋).toNat < (scores.insertionSort (· ≤ ·)).length := by
    rw [hslen]; exact hkn
  -- the sorted element at the floor index is at most the interpolated quantile
  have hquant : (scores.insertionSort (· ≤ ·)).get ⟨(⌊p * ((scores.length : ℚ) - 1)⌋).toNat, hkn2⟩ ≤
      npQuantileLinear scores p := by
    have hval : npQuantileLinear scores p =
        (scores.insertionSort (· ≤ ·)).getD (⌊p * ((scores.length : ℚ) - 1)⌋).toNat 0 +
          (p * ((scores.length : ℚ) - 1) - ((⌊p * ((scores.length : ℚ) - 1)⌋ : ℤ) : ℚ)) *
          ((scores.insertionSort (· ≤ ·)).getD ((⌊p * ((scores.length : ℚ) - 1)⌋).toNat + 1)
              ((scores.insertionSort (· ≤ ·)).getD (⌊p * ((scores.length : ℚ) - 1)⌋).toNat 0) -
            (scores.insertionSort (· ≤ ·)).getD (⌊p * ((scores.length : ℚ) - 1)⌋).toNat 0) := rfl
    rw [hval]
    rw [getD_eq_get _ _ _ hkn2]
    set A := (scores.insertionSort (· ≤ ·)).get ⟨(⌊p * ((scores.length : ℚ) - 1)⌋).toNat, hkn2⟩
      with hA
    have hg : 0 ≤ p * ((scores.length : ℚ) - 1) - ((⌊p * ((scores.length : ℚ) - 1)⌋ : ℤ) : ℚ) := by
      have := Int.floor_le (p * ((scores.length : ℚ) - 1))
      linarith
    by_cases hb : (⌊p * ((scores.length : ℚ) - 1)⌋).toNat + 1 <
        (scores.insertionSort (· ≤ ·)).length
    · rw [getD_eq_get _ _ _ hb]
      have hAB : A ≤ (scores.insertionSort (· ≤ ·)).get
          ⟨(⌊p * ((scores.length : ℚ) - 1)⌋).toNat + 1, hb⟩ :=
        sorted_rel_get _ hsort _ _ hkn2 hb (Nat.lt_succ_self _)
      nlinarith
    · push_neg at hb
      rw [getD_eq_default _ _ _ hb]
      have : A - A = 0 := by ring
      nlinarith
  have hcount := sorted_countP_le (npQuantileLinear scores p) (scores.insertionSort (· ≤ ·))
    hsort _ hkn2 hquant
  calc (⌊p * ((scores.length : ℚ) - 1)⌋).toNat + 1
      ≤ (scores.insertionSort (· ≤ ·)).countP
          (fun x => decide (x ≤ npQuantileLinear scores p)) := hcount
    _ = scores.countP (fun x => decide (x ≤ npQuantileLinear scores p)) :=
        hperm.countP_eq _


theorem emod_bound_9n (n : ℕ) (h10 : 10 ≤ n) :
    (9 * ((n:ℤ) * (n:ℤ)) - 9) % (10 * (n:ℤ)) + 9 ≤ 10 * (n:ℤ) := by
  have hNpos : (10:ℤ) ≤ (n:ℤ) := by exact_mod_cast h10
  set N : ℤ := (n : ℤ) with hN
  set r9 : ℤ := (9 * N) % 10 with hr9
  set m : ℤ := (9 * N) / 10 with hm
  have heq : 10 * m + r9 = 9 * N := Int.ediv_add_emod (9 * N) 10
  have hr90 : 0 ≤ r9 := Int.emod_nonneg _ (by norm_num)
  have hr9lt : r9 < 10 := Int.emod_lt_of_pos _ (by norm_num)
  have hA : 9 * (N * N) - 9 = (r9 * N - 9) + (10 * N) * m := by
    linear_combination (-N) * heq
  rcases eq_or_lt_of_le hr90 with hz | hpos
  · have hA2 : 9 * (N * N) - 9 = (10 * N - 9) + (10 * N) * (m - 1) := by
      rw [hA, ← hz]; ring
    rw [hA2, Int.add_mul_emod_self_left]
    rw [Int.emod_eq_of_lt (by linarith) (by linarith)]
    linarith
  · have hx0 : 0 ≤ r9 * N - 9 := by nlinarith
    have hxlt : r9 * N - 9 < 10 * N := by nlinarith
    rw [hA, Int.add_mul_emod_self_left]
    rw [Int.emod_eq_of_lt hx0 hxlt]
    nlinarith

theorem conformal_arith (n : ℕ) (hn : 1 ≤ n) :
    (9:ℚ)/10 * n ≤ (((⌊(min ((1 + (n:ℚ)) * (9/10) / n) 1) * ((n:ℚ) - 1)⌋).toNat + 1 : ℕ) : ℚ) := by
  have hnq : (0:ℚ) < n := by exact_mod_cast hn
  by_cases hc : 1 ≤ (1 + (n:ℚ)) * (9/10) / n
  · rw [min_eq_right hc, one_mul]
    have h1 : ((n:ℚ) - 1) = (((n:ℤ) - 1 : ℤ) : ℚ) := by push_cast; ring
    rw [h1, Int.floor_intCast]
    have h2 : ((n:ℤ) - 1).toNat = n - 1 := by omega
    rw [h2]
    have h3 : n - 1 + 1 = n := by omega
    rw [h3]
    nlinarith
  · push_neg at hc
    rw [min_eq_left (le_of_lt hc)]
    have h10 : 10 ≤ n := by
      by_contra hlt
      push_neg at hlt
      have hle9 : (n:ℚ) ≤ 9 := by exact_mod_cast Nat.lt_succ_iff.mp hlt
      have : 1 ≤ (1 + (n:ℚ)) * (9/10) / n := by
        rw [le_div_iff₀ hnq]
        nlinarith
      linarith
    have hfrac : (1 + (n:ℚ)) * (9/10) / n * ((n:ℚ) - 1) =
        ((9 * ((n:ℤ) * (n:ℤ)) - 9 : ℤ) : ℚ) / ((10 * n : ℕ) : ℚ) := by
      have hne : (n:ℚ) ≠ 0 := ne_of_gt hnq
      push_cast
      field_simp
      ring
    have hDcast : ((10 * n : ℕ) : ℤ) = 10 * (n:ℤ) := by push_cast; ring
    rw [hfrac, Rat.floor_intCast_div_natCast, hDcast]
    have hNpos : (0:ℤ) < (n:ℤ) := by exact_mod_cast lt_of_lt_of_le (by norm_num) hn
    have hq0 : 0 ≤ (9 * ((n:ℤ) * (n:ℤ)) - 9 : ℤ) / (10 * (n:ℤ)) := by
      apply Int.ediv_nonneg
      · have h1N : (1:ℤ) ≤ (n:ℤ) := by exact_mod_cast hn
        nlinarith
      · linarith
    have hint : 9 * (n:ℤ) ≤ 10 * ((9 * ((n:ℤ) * (n:ℤ)) - 9 : ℤ) / (10 * (n:ℤ)) + 1) := by
      have hdm := Int.ediv_add_emod (9 * ((n:ℤ) * (n:ℤ)) - 9) (10 * (n:ℤ))
      have hr := emod_bound_9n n h10
      have hmain : 9 * ((n:ℤ) * (n:ℤ)) ≤
          10 * (n:ℤ) * ((9 * ((n:ℤ) * (n:ℤ)) - 9) / (10 * (n:ℤ)) + 1) := by
        nlinarith [hdm, hr]
      by_contra hcon
      push_neg at hcon
      have hcon2 : 10 * ((9 * ((n:ℤ) * (n:ℤ)) - 9) / (10 * (n:ℤ)) + 1) + 1 ≤ 9 * (n:ℤ) := hcon
      nlinarith [mul_le_mul_of_nonneg_left hcon2 (le_of_lt hNpos), hmain]
    have h1 : (((9 * ((n:ℤ) * (n:ℤ)) - 9 : ℤ) / (10 * (n:ℤ))).toNat : ℤ) =
        (9 * ((n:ℤ) * (n:ℤ)) - 9 : ℤ) / (10 * (n:ℤ)) := Int.toNat_of_nonneg hq0
    have hcast : ((((9 * ((n:ℤ) * (n:ℤ)) - 9 : ℤ) / (10 * (n:ℤ))).toNat + 1 : ℕ) : ℚ) =
        (((9 * ((n:ℤ) * (n:ℤ)) - 9 : ℤ) / (10 * (n:ℤ)) : ℤ) : ℚ) + 1 := by
      exact_mod_cast congrArg (fun z : ℤ => z + 1) h1
    rw [hcast]
    have hQ : ((9 * (n:ℤ) : ℤ) : ℚ) ≤
        ((10 * ((9 * ((n:ℤ) * (n:ℤ)) - 9 : ℤ) / (10 * (n:ℤ)) + 1) : ℤ) : ℚ) := by
      exact_mod_cast hint
    push_cast at hQ
    linarith


theorem calibrate_ok_fields (st0 : ConformalState) (preds acts : List ℚ)
    (st : ConformalState) (h : calibrate st0 preds acts = Except.ok st) :
    preds.length = acts.length ∧
    st.quantile = some (npQuantileLinear
      ((List.zip preds acts).map (fun pa => |pa.1 - pa.2|))
      (min ((1 + ((((List.zip preds acts).map (fun pa => |pa.1 - pa.2|)).length : ℕ) : ℚ)) *
          (1 - st0.alpha) / (((List.zip preds acts).map (fun pa => |pa.1 - pa.2|)).length : ℚ)) 1)) ∧
    st.adaptive = st0.adaptive ∧ st.coverageHistory = st0.coverageHistory := by
  unfold calibrate at h
  by_cases h1 : preds.length ≠ acts.length
  · rw [if_pos h1] at h; cases h
  · rw [if_neg h1] at h
    push_neg at h1
    by_cases h2 : ((List.zip preds acts).map (fun pa => |pa.1 - pa.2|)).length = 0
    · rw [if_pos h2] at h; cases h
    · rw [if_neg h2] at h
      by_cases h3 : min ((1 + ((((List.zip preds acts).map (fun pa => |pa.1 - pa.2|)).length : ℕ) : ℚ)) *
          (1 - st0.alpha) / (((List.zip preds acts).map (fun pa => |pa.1 - pa.2|)).length : ℚ)) 1 < 0
      · rw [if_pos h3] at h; cases h
      · rw [if_neg h3] at h
        cases h
        exact ⟨h1, rfl, rfl, rfl⟩

theorem predict_ok_fields (st : ConformalState) (preds : List ℚ) (v : ℚ)
    (hq : st.quantile = some v) (hhist : st.coverageHistory = []) (iv : Intervals)
    (h : predictWithIntervals st preds none = Except.ok iv) :
    iv.lower = preds.map (fun p => p - v) ∧ iv.upper = preds.map (fun p => p + v) := by
  unfold predictWithIntervals at h
  rw [hq] at h
  simp only at h
  have hcond : ¬(st.adaptive = true ∧ 0 < st.coverageHistory.length) := by
    rw [hhist]; simp
  rw [if_neg hcond] at h
  cases h
  exact ⟨rfl, rfl⟩

/-- `C6`: the conformal round-trip — calibrating a fresh default
`ConformalPrediction` (coverage 0.9) on `(preds, actuals)` and immediately
asking for intervals on the same `preds` covers at least `⌈0.9·n⌉` of the
actuals: the interval half-width is the calibrated quantile (the coverage
history is empty), and the finite-sample-corrected quantile of the
non-conformity scores dominates at least `⌊q·(n−1)⌋+1` sorted scores, which
is never fewer than `⌈0.9·n⌉`. -/
theorem C6_conformal_roundtrip (preds acts : List ℚ)
    (hlen : preds.length = acts.length) (hpos : 1 ≤ preds.length)
    (st : ConformalState) (iv : Intervals)
    (hcal : calibrate (mkConformal (9/10) none true) preds acts = Except.ok st)
    (hiv : predictWithIntervals st preds none = Except.ok iv) :
    Nat.ceil ((9:ℚ)/10 * preds.length) ≤ coveredCount iv.lower iv.upper acts := by
  have hslen : ((List.zip preds acts).map (fun pa => |pa.1 - pa.2|)).length = preds.length := by
    simp [List.length_zip, hlen]
  obtain ⟨hl2, hquant, hadapt, hhist⟩ := calibrate_ok_fields _ preds acts st hcal
  have halpha : (1:ℚ) - (mkConformal (9/10) none true).alpha = 9/10 := by
    norm_num [mkConformal]
  rw [halpha] at hquant
  have hhist2 : st.coverageHistory = [] := by
    rw [hhist]; rfl
  obtain ⟨hlow, hupp⟩ := predict_ok_fields st preds _ hquant hhist2 iv hiv
  rw [hlow, hupp]
  rw [coveredCount_eq_scores _ preds acts hlen]
  apply Nat.ceil_le.mpr
  rw [hslen]
  have hp0 : 0 ≤ min ((1 + ((((List.zip preds acts).map (fun pa => |pa.1 - pa.2|)).length : ℕ) : ℚ)) *
      (9/10) / (((List.zip preds acts).map (fun pa => |pa.1 - pa.2|)).length : ℚ)) 1 := by
    apply le_min
    · rw [hslen]
      have : (0:ℚ) < (preds.length : ℚ) := by exact_mod_cast hpos
      positivity
    · norm_num
  have hp1 : min ((1 + ((((List.zip preds acts).map (fun pa => |pa.1 - pa.2|)).length : ℕ) : ℚ)) *
      (9/10) / (((List.zip preds acts).map (fun pa => |pa.1 - pa.2|)).length : ℚ)) 1 ≤ 1 :=
    min_le_right _ _
  have hcount := countP_npQuantileLinear
    ((List.zip preds acts).map (fun pa => |pa.1 - pa.2|)) _ hp0 hp1 (by rw [hslen]; omega)
  rw [hslen] at hcount
  have harith := conformal_arith preds.length hpos
  rw [hslen] at hp0 hp1
  calc (9:ℚ)/10 * preds.length
      ≤ (((⌊(min ((1 + (preds.length:ℚ)) * (9/10) / preds.length) 1) *
          ((preds.length:ℚ) - 1)⌋).toNat + 1 : ℕ) : ℚ) := harith
    _ ≤ (((List.zip preds acts).map (fun pa => |pa.1 - pa.2|)).countP
          (fun s => decide (s ≤ npQuantileLinear
            ((List.zip preds acts).map (fun pa => |pa.1 - pa.2|))
            (min ((1 + (preds.length:ℚ)) * (9/10) / preds.length) 1))) : ℚ) := by
        exact_mod_cast hcount


/-- `C6` witness fixture: the state `calibrate` produces from the
one-point calibration set `([1], [1])` on a fresh default wrapper. -/
def c6Calibrated : ConformalState :=
  { coverage := 9/10, alpha := 1/10, adaptive := true, calibrationScores := [0],
    quantile := some 0, coverageHistory := [] }

/-- `C6` witness fixture: the intervals returned for `[1]` right after that
calibration (width 0). -/
def c6Intervals : Intervals :=
  { predictions := [1], lower := [1], upper := [1], intervalWidth := [0],
    coverage := 9/10, alpha := 1/10 }

/-- `C6` witness: the round-trip at `preds = acts = [1]` covers
`⌈0.9 · 1⌉ = 1` of 1 actual. -/
theorem C6_conformal_roundtrip_witness :
    Nat.ceil ((9:ℚ)/10 * (([1] : List ℚ).length)) ≤
      coveredCount c6Intervals.lower c6Intervals.upper [1] :=
  C6_conformal_roundtrip [1] [1] rfl (by norm_num)
    c6Calibrated c6Intervals
    (by
      unfold calibrate mkConformal npQuantileLinear c6Calibrated
      norm_num [List.insertionSort, List.orderedInsert])
    (by
      unfold predictWithIntervals c6Calibrated c6Intervals
      norm_num)

end Major
